import Mathlib

/-!
Verification of the Insurance-Game turn engine against its specification.

The development shallowly embeds the Python sources of the repository:

* `asset.py`          (namespace `AssetPy`): the Asset class with the price
  floor and the `net_trades` order-flow accumulator;
* `game_logic.py`     (namespace `GameLogic`): the original `GameState` with
  its own legacy `Asset` class, the turn pipeline `update`, `unlock_state`,
  `buy_asset` and `sell_asset`;
* `models.py`         (top level and namespace `Models`): `Company`,
  `MarketSegment`, `FinancialReport`, `AICompetitor` and the newer
  `GameState` with AI competitors and `to_dict` / `from_dict`.

Conventions of the embedding:

* Python floats are modelled as `ℚ`; Python ints as `ℤ` (or `ℕ` where the
  source guarantees non-negativity, e.g. `market_size`).
* `np.exp` and `np.sin` are transcendental; they enter the model as explicit
  function parameters (`expQ`, `sinQ`).  Every theorem quantifies over them
  (with the facts about them it needs as hypotheses), so nothing is assumed
  beyond what a concrete run provides.
* Random draws (`np.random.normal/uniform/poisson/lognormal/random`) are
  modelled by an explicit environment (`GameLogic.Rng`) supplying the drawn
  values; theorems hold for every environment, i.e. for every realisation
  of the randomness.
* Python dicts that are iterated are association lists (`List (k × v)`),
  with `dictSet` giving CPython's insertion-order update semantics; dicts
  only ever read by key are total functions with the `.get` default.
* `int(x)` is `pyInt` (truncation toward zero); `np.clip` is `clip`
  (`np.minimum(hi, np.maximum(x, lo))` as documented by numpy).
* Line identifiers `"CA_home"` etc. are the structured pairs `LineId`;
  the source's `line_id.split("_")[0]` is the `state` projection and
  `"_home" in line_id` is the `line = .home` test (state codes in the
  program are `"CA"`/`"FL"`, which contain no underscore).
-/

/-- Python `int(x)` applied to a float: truncation toward zero. -/
def pyInt (q : ℚ) : ℤ :=
  if 0 ≤ q then ⌊q⌋ else ⌈q⌉

/-- `np.clip(x, lo, hi)`, which numpy documents as
`np.minimum(hi, np.maximum(x, lo))`. -/
def clip (x lo hi : ℚ) : ℚ :=
  min hi (max x lo)

/-- `np.mean` of a Python list of floats. -/
def listMean (l : List ℚ) : ℚ :=
  l.sum / (l.length : ℚ)

/-- Read a key from an association list (first occurrence wins, as in a
Python dict whose keys are unique). -/
def alistGet? {K V : Type} [DecidableEq K] : List (K × V) → K → Option V
  | [], _ => none
  | (k, v) :: t, k₀ => if k = k₀ then some v else alistGet? t k₀

/-- Python's `d.get(k, default)`. -/
def alistGetD {K V : Type} [DecidableEq K] (l : List (K × V)) (k : K) (d : V) : V :=
  (alistGet? l k).getD d

/-- Python's `d[k] = v` on an insertion-ordered dict: replace the first
binding of `k` in place, or append a new binding at the end. -/
def dictSet {K V : Type} [DecidableEq K] : List (K × V) → K → V → List (K × V)
  | [], k, v => [(k, v)]
  | (k₁, v₁) :: t, k, v =>
      if k₁ = k then (k, v) :: t else (k₁, v₁) :: dictSet t k v

/-- The two insurance lines sold in every state. -/
inductive Line
  | home
  | auto
  deriving DecidableEq, Repr

/-- A `"{state}_home"` / `"{state}_auto"` dict key, structured. -/
structure LineId where
  state : String
  line : Line
  deriving DecidableEq, Repr

/-- The `"type"` tag of a generated claim. -/
inductive ClaimType
  | regular
  | catastrophe
  deriving DecidableEq, Repr

/-- One claim dict `{"line", "amount", "turn", "type"}` as appended by
`_generate_claims`. -/
structure Claim where
  line : LineId
  amount : ℚ
  turn : ℕ
  type : ClaimType
  deriving DecidableEq, Repr

/-- An entry of `claim_distributions`.  In the source the auto entries carry
only `mean`/`sigma`; the `cat_mean`/`cat_risk` fields are read exclusively
inside the `"_home" in line_id` branch, so carrying them (unused) for auto
lines is observation-equivalent. -/
structure ClaimDist where
  mean : ℚ
  sigma : ℚ
  cat_mean : ℚ
  cat_risk : ℚ
  deriving DecidableEq, Repr

/-- An entry of the `states` table of `game_logic.py` / `models.py`. -/
structure StateInfo where
  name : String
  catastrophe_risk : ℚ
  cat_severity : ℚ
  market_size_multiplier : ℚ
  entry_cost : ℚ
  deriving DecidableEq, Repr

/-- `models.MarketSegment` (the aggregate-demand dataclass). -/
structure MarketSegment where
  name : String
  base_risk : ℚ
  price_sensitivity : ℚ
  market_size : ℕ
  current_demand : ℕ
  deriving DecidableEq, Repr

/-- `models.MarketSegment.calculate_demand`.  `np.exp` is supplied as the
parameter `expQ`. -/
def MarketSegment.calculate_demand (seg : MarketSegment) (expQ : ℚ → ℚ)
    (premium : ℚ) (competitor_premiums : List ℚ) : ℤ :=
  let relative_price :=
    if competitor_premiums = [] then 1 else premium / listMean competitor_premiums
  let demand_factor := expQ (-(seg.price_sensitivity * (relative_price - 1)))
  pyInt (min (seg.market_size : ℚ) ((seg.current_demand : ℚ) * demand_factor))

/-- `models.FinancialReport` (exactly the six stored fields; `net_income`
is a computed property, not stored). -/
structure FinancialReport where
  period : ℕ
  revenue : ℚ
  claims_paid : ℚ
  investment_returns : ℚ
  unrealized_gains : ℚ
  operating_expenses : ℚ
  deriving DecidableEq, Repr

/-- `models.FinancialReport.net_income` (derived). -/
def FinancialReport.net_income (r : FinancialReport) : ℚ :=
  r.revenue + r.investment_returns - r.claims_paid - r.operating_expenses

/-- `models.Company`.  `investments`, `premium_rates`, `advertising_budget`
are only ever read by key (with defaults) or wholly replaced, so they are
total maps; `policies_sold` and `claims_history` are iterated, so they are
ordered association lists. -/
structure Company where
  name : String
  cash : ℚ
  investments : String → ℤ
  policies_sold : List (LineId × ℤ)
  claims_history : List Claim
  premium_rates : LineId → Option ℚ
  advertising_budget : LineId → ℚ

/-- `models.Company.process_claims`: pay the claims and append them to
history; returns the new company and the total paid. -/
def Company.process_claims (c : Company) (claims : List Claim) : Company × ℚ :=
  let total_claims := (claims.map Claim.amount).sum
  ({ c with
      cash := c.cash - total_claims,
      claims_history := c.claims_history ++ claims }, total_claims)

namespace AssetPy

/-- `asset.Asset` (src/asset.py): the asset with price floor and the
`net_trades` order-flow accumulator. -/
structure Asset where
  name : String
  current_price : ℚ
  dividend_yield : ℚ
  volatility : ℚ
  price_history : List ℚ
  net_trades : ℤ

/-- `asset.Asset.__init__`. -/
def Asset.init (name : String) (current_price dividend_yield volatility : ℚ) : Asset :=
  { name := name
    current_price := current_price
    dividend_yield := dividend_yield
    volatility := volatility
    price_history := [current_price]
    net_trades := 0 }

/-- `asset.Asset.update_price`.  `random_shock` stands for the
`np.random.normal(0, volatility / 2)` draw of this call. -/
def Asset.update_price (a : Asset) (random_shock : ℚ) : Asset :=
  let drift : ℚ := 0.02 / 4
  let random_move := a.current_price * (drift + random_shock)
  let market_pressure := clip ((a.net_trades : ℚ) / 1000) (-0.02) 0.02
  let market_move := a.current_price * market_pressure
  let total_change := random_move * 0.8 + market_move * 0.2
  let new_price := max 0.01 (a.current_price + total_change)
  { a with
      current_price := new_price
      net_trades := 0
      price_history := a.price_history ++ [new_price] }

/-- `asset.Asset.get_quarterly_income`. -/
def Asset.get_quarterly_income (a : Asset) (shares : ℤ) : ℚ :=
  (shares : ℚ) * a.current_price * (a.dividend_yield / 4)

/-- `asset.Asset.record_trade`: positive for buys, negative for sells. -/
def Asset.record_trade (a : Asset) (shares : ℤ) : Asset :=
  { a with net_trades := a.net_trades + shares }

end AssetPy

namespace GameLogic

/-- The legacy `Asset` class defined inside `game_logic.py` (lines 5-28):
multiplicative random walk, no price floor, no `net_trades`. -/
structure Asset where
  name : String
  current_price : ℚ
  dividend_yield : ℚ
  volatility : ℚ
  price_history : List ℚ

/-- `game_logic.Asset.update_price`.  `random_return` stands for the
`np.random.normal(daily_drift, daily_vol)` draw of this call. -/
def Asset.update_price (a : Asset) (random_return : ℚ) : Asset :=
  let p := a.current_price * (1 + random_return)
  { a with current_price := p, price_history := a.price_history ++ [p] }

/-- `game_logic.Asset.get_quarterly_income`. -/
def Asset.get_quarterly_income (a : Asset) (shares : ℤ) : ℚ :=
  a.dividend_yield * a.current_price * (shares : ℚ) / 4

/-- The randomness environment of one `GameState.update` call: every
`np.random` draw the pipeline makes, plus the transcendental library
functions `np.exp` / `np.sin`, determinised as explicit functions.
Independent draws are separated by line / asset / draw index; the price
draws are indexed by the length of the asset's price history so that the
two price updates an asset receives in one turn obtain distinct draws. -/
structure Rng where
  expQ : ℚ → ℚ
  sinQ : ℚ → ℚ
  variation : LineId → ℚ
  poissonCount : LineId → ℕ
  regularAmount : LineId → ℚ → ℚ → ℕ → ℚ
  catOccur : LineId → ℚ
  catRatio : LineId → ℚ
  catAmount : LineId → ℚ → ℚ → ℕ → ℚ
  demandShock : String → Line → ℚ
  priceReturn : String → ℕ → ℚ

/-- `game_logic.GameState`: the original single-company game state. -/
structure GameState where
  current_turn : ℕ
  player_company : Company
  investment_assets : List (String × Asset)
  states : List (String × StateInfo)
  unlocked_states : String → Bool
  market_segments : List (LineId × MarketSegment)
  base_market_rates : LineId → ℚ
  claim_distributions : LineId → ClaimDist
  financial_history : List FinancialReport

/-- `game_logic.GameState.unlock_state` (lines 147-158). -/
def GameState.unlock_state (s : GameState) (state_id : String) : GameState × Bool :=
  match alistGet? s.states state_id with
  | none => (s, false)
  | some info =>
      if s.unlocked_states state_id then (s, false)
      else if info.entry_cost ≤ s.player_company.cash then
        ({ s with
            player_company :=
              { s.player_company with cash := s.player_company.cash - info.entry_cost },
            unlocked_states := fun i => if i = state_id then true else s.unlocked_states i },
          true)
      else (s, false)

/-- `game_logic.GameState._update_policies` (lines 169-192): the
single-company aggregate demand model (the competitor premium list passed
to `calculate_demand` is just the base market rate). -/
def GameState.update_policies (s : GameState) (rng : Rng) : GameState :=
  let new_policies := s.market_segments.foldl (fun acc e =>
    if s.unlocked_states e.1.state then
      let premium_rate := (s.player_company.premium_rates e.1).getD (s.base_market_rates e.1)
      let potential_policies :=
        e.2.calculate_demand rng.expQ premium_rate [s.base_market_rates e.1]
      dictSet acc e.1 (pyInt ((potential_policies : ℚ) * rng.variation e.1))
    else dictSet acc e.1 0) []
  { s with player_company := { s.player_company with policies_sold := new_policies } }

/-- The quarterly premium revenue summed by `_generate_claims` (and again
by `_generate_financial_report`):
`sum(premium_rates.get(line, base_rate) * policies) / 4`. -/
def GameState.premiumRevenue (s : GameState) : ℚ :=
  (s.player_company.policies_sold.map (fun e =>
    ((s.player_company.premium_rates e.1).getD (s.base_market_rates e.1)) * (e.2 : ℚ))).sum / 4

/-- The regular claims `_generate_claims` emits for one line: the Poisson
draw gives the count, each claim amount is an independent
`np.random.lognormal(dist.mean, dist.sigma)` draw. -/
def GameState.regularClaimsFor (s : GameState) (rng : Rng) (line_id : LineId) : List Claim :=
  let dist := s.claim_distributions line_id
  (List.range (rng.poissonCount line_id)).map (fun k =>
    { line := line_id
      amount := rng.regularAmount line_id dist.mean dist.sigma k
      turn := s.current_turn
      type := ClaimType.regular })

/-- The catastrophe claims `_generate_claims` emits for one line: only in
the `"_home" in line_id` branch; the catastrophe fires when the uniform
`np.random.random()` draw is below `catastrophe_risk / 4` (an event of
exactly that probability); it affects `int(policies * uniform(0.1, 0.3))`
policies, each claim an independent
`np.random.lognormal(dist.cat_mean, 0.5)` draw.  (A state id absent from
the `states` table would raise `KeyError` in Python; the model returns no
claims there, and every state the program constructs is present.) -/
def GameState.catClaimsFor (s : GameState) (rng : Rng) (line_id : LineId) (policies : ℤ) :
    List Claim :=
  if line_id.line = Line.home then
    let dist := s.claim_distributions line_id
    let cat_risk := ((alistGet? s.states line_id.state).map StateInfo.catastrophe_risk).getD 0 / 4
    if rng.catOccur line_id < cat_risk then
      let affected_policies := pyInt ((policies : ℚ) * rng.catRatio line_id)
      (List.range affected_policies.toNat).map (fun k =>
        { line := line_id
          amount := rng.catAmount line_id dist.cat_mean 0.5 k
          turn := s.current_turn
          type := ClaimType.catastrophe })
    else []
  else []

/-- The full claims list built by `_generate_claims`: per line of
`policies_sold` (in dict order), the regular claims then the catastrophe
claims. -/
def GameState.generatedClaims (s : GameState) (rng : Rng) : List Claim :=
  s.player_company.policies_sold.flatMap (fun e =>
    s.regularClaimsFor rng e.1 ++ s.catClaimsFor rng e.1 e.2)

/-- `game_logic.GameState._generate_claims` (lines 194-254): credit the
quarterly premium revenue, then generate and pay the claims
(`Company.process_claims`). -/
def GameState.generate_claims (s : GameState) (rng : Rng) : GameState :=
  let c1 := { s.player_company with cash := s.player_company.cash + s.premiumRevenue }
  { s with player_company := (c1.process_claims (s.generatedClaims rng)).1 }

/-- `game_logic.GameState._update_market_demand` (lines 256-280): per state
and line, scale `current_demand` by the economic cycle, seasonal effect and
a normal fluctuation, clamped to `[0, market_size]`. -/
def GameState.update_market_demand (s : GameState) (rng : Rng) : GameState :=
  let segs := s.states.foldl (fun acc e =>
    [Line.home, Line.auto].foldl (fun acc2 line =>
      match alistGet? acc2 ⟨e.1, line⟩ with
      | none => acc2
      | some segment =>
          let economic_cycle := rng.sinQ ((s.current_turn : ℚ) / 8) * 0.1
          let seasonal_effect :=
            if e.1 = "FL" then rng.sinQ ((s.current_turn : ℚ) / 4) * 0.15
            else rng.sinQ ((s.current_turn : ℚ) / 4) * 0.05
          let total_effect :=
            1 + economic_cycle + seasonal_effect + rng.demandShock e.1 line
          let new_demand := pyInt ((segment.current_demand : ℚ) * total_effect)
          dictSet acc2 ⟨e.1, line⟩
            { segment with
                current_demand := (max 0 (min (segment.market_size : ℤ) new_demand)).toNat })
      acc) s.market_segments
  { s with market_segments := segs }

/-- The quarterly dividend/interest income summed by
`_calculate_investment_returns`: over every asset in which the player holds
a strictly positive number of shares. -/
def GameState.investmentIncome (s : GameState) : ℚ :=
  (s.investment_assets.map (fun e =>
    if 0 < s.player_company.investments e.1
    then e.2.get_quarterly_income (s.player_company.investments e.1)
    else 0)).sum

/-- The per-asset price update step of `_calculate_investment_returns`:
held assets get a fresh price draw, others are untouched. -/
def updateHeldAsset (s : GameState) (rng : Rng) (e : String × Asset) : String × Asset :=
  if 0 < s.player_company.investments e.1
  then (e.1, e.2.update_price (rng.priceReturn e.1 e.2.price_history.length))
  else e

/-- The unrealized gains summed by `_calculate_investment_returns`. -/
def GameState.unrealizedGains (s : GameState) (rng : Rng) : ℚ :=
  (s.investment_assets.map (fun e =>
    if 0 < s.player_company.investments e.1
    then ((updateHeldAsset s rng e).2.current_price - e.2.current_price)
           * (s.player_company.investments e.1 : ℚ)
    else 0)).sum

/-- `game_logic.GameState._calculate_investment_returns` (lines 282-304):
for each held asset accrue the quarterly income and update its price; the
income is credited to cash; returns `(new_state, total_income,
unrealized_gains)` mirroring the Python return value. -/
def GameState.calculate_investment_returns (s : GameState) (rng : Rng) :
    GameState × ℚ × ℚ :=
  ({ s with
      investment_assets := s.investment_assets.map (updateHeldAsset s rng),
      player_company :=
        { s.player_company with cash := s.player_company.cash + s.investmentIncome } },
    s.investmentIncome, s.unrealizedGains rng)

/-- `game_logic.GameState._generate_financial_report` (lines 306-335): note
that it calls `_calculate_investment_returns` a second time (with side
effects) to obtain the numbers for the report. -/
def GameState.generate_financial_report (s : GameState) (rng : Rng) : GameState :=
  let premium_revenue := s.premiumRevenue
  let r := s.calculate_investment_returns rng
  let current_claims :=
    ((r.1.player_company.claims_history.filter (fun c => c.turn = r.1.current_turn)).map
      Claim.amount).sum
  let report : FinancialReport :=
    { period := r.1.current_turn
      revenue := premium_revenue
      claims_paid := current_claims
      investment_returns := r.2.1
      unrealized_gains := r.2.2
      operating_expenses := 50000 }
  { r.1 with financial_history := r.1.financial_history ++ [report] }

/-- `game_logic.GameState.update` (lines 160-167): the per-turn pipeline. -/
def GameState.update (s : GameState) (rng : Rng) : GameState :=
  let s1 := s.update_policies rng
  let s2 := s1.generate_claims rng
  let s3 := s2.update_market_demand rng
  let s4 := (s3.calculate_investment_returns rng).1
  let s5 := s4.generate_financial_report rng
  { s5 with current_turn := s5.current_turn + 1 }

/-- `game_logic.GameState.buy_asset` (lines 337-351). -/
def GameState.buy_asset (s : GameState) (asset_name : String) (shares : ℤ) :
    GameState × Bool :=
  match alistGet? s.investment_assets asset_name with
  | none => (s, false)
  | some asset =>
      let cost := asset.current_price * (shares : ℚ)
      if s.player_company.cash < cost then (s, false)
      else
        let current_shares := s.player_company.investments asset_name
        ({ s with
            player_company :=
              { s.player_company with
                  cash := s.player_company.cash - cost,
                  investments := fun n =>
                    if n = asset_name then current_shares + shares
                    else s.player_company.investments n } },
          true)

/-- `game_logic.GameState.sell_asset` (lines 353-367). -/
def GameState.sell_asset (s : GameState) (asset_name : String) (shares : ℤ) :
    GameState × Bool :=
  match alistGet? s.investment_assets asset_name with
  | none => (s, false)
  | some asset =>
      let current_shares := s.player_company.investments asset_name
      if current_shares < shares then (s, false)
      else
        let proceeds := asset.current_price * (shares : ℚ)
        ({ s with
            player_company :=
              { s.player_company with
                  cash := s.player_company.cash + proceeds,
                  investments := fun n =>
                    if n = asset_name then current_shares - shares
                    else s.player_company.investments n } },
          true)

end GameLogic

/-- A fresh player company as built by `GameState.__init__` ($1M cash,
empty books). -/
def initialCompany : Company :=
  { name := "Player Insurance Co."
    cash := 1000000
    investments := fun _ => 0
    policies_sold := []
    claims_history := []
    premium_rates := fun _ => none
    advertising_budget := fun _ => 0 }

/-- The `states` table of `game_logic.GameState.__init__` (the
transcendental `np.log` severities appear here as their rational values
only up to the precision the theorems need; no theorem depends on them). -/
def statesTable : List (String × StateInfo) :=
  [("CA", { name := "California", catastrophe_risk := 1/100, cat_severity := 131/10,
            market_size_multiplier := 3/2, entry_cost := 500000 }),
   ("FL", { name := "Florida", catastrophe_risk := 1/20, cat_severity := 62/5,
            market_size_multiplier := 1, entry_cost := 300000 })]

/-- A concrete game state for the unlock-state scenario: CA unlocked, FL
locked, the initial $1M of cash. -/
def unlockTestState : GameLogic.GameState :=
  { current_turn := 0
    player_company := initialCompany
    investment_assets := []
    states := statesTable
    unlocked_states := fun i => i = "CA"
    market_segments := []
    base_market_rates := fun _ => 900
    claim_distributions := fun _ => { mean := 87/10, sigma := 1/2, cat_mean := 62/5, cat_risk := 1/20 }
    financial_history := [] }

/-- A concrete game state holding one tradable asset (SP500 at $450) and
$1M of cash, for the buy/sell scenarios. -/
def tradeTestState : GameLogic.GameState :=
  { current_turn := 0
    player_company := initialCompany
    investment_assets :=
      [("SP500", { name := "SP 500 ETF", current_price := 450, dividend_yield := 3/200,
                   volatility := 3/20, price_history := [450] })]
    states := statesTable
    unlocked_states := fun i => i = "CA"
    market_segments := []
    base_market_rates := fun _ => 900
    claim_distributions := fun _ => { mean := 87/10, sigma := 1/2, cat_mean := 62/5, cat_risk := 1/20 }
    financial_history := [] }

/-- A concrete simulation state: CA unlocked, one CA home segment
(market size 2000, demand 1500), base rate $900, and 10 SP500 shares
held at $450 (dividend yield 1.5%). -/
def simTestState : GameLogic.GameState :=
  { current_turn := 0
    player_company :=
      { initialCompany with investments := fun n => if n = "SP500" then 10 else 0 }
    investment_assets :=
      [("SP500", { name := "SP 500 ETF", current_price := 450, dividend_yield := 3/200,
                   volatility := 3/20, price_history := [450] })]
    states := statesTable
    unlocked_states := fun i => i = "CA"
    market_segments :=
      [(⟨"CA", Line.home⟩,
        { name := "Home Insurance - California", base_risk := 1/20,
          price_sensitivity := 6/5, market_size := 2000, current_demand := 1500 })]
    base_market_rates := fun _ => 900
    claim_distributions := fun _ => { mean := 87/10, sigma := 1/2, cat_mean := 62/5, cat_risk := 1/20 }
    financial_history := [] }

/-- A fully explicit randomness realisation: `exp 0 = 1` and `sin 0 = 0`
match the real library functions at the only points where this run
evaluates them; all random draws are central/zero (variation 1, no claims,
no catastrophe trigger since the uniform draw 1 is above every
`risk / 4 < 1`, zero price shocks). -/
def rngZero : GameLogic.Rng :=
  { expQ := fun _ => 1
    sinQ := fun _ => 0
    variation := fun _ => 1
    poissonCount := fun _ => 0
    regularAmount := fun _ _ _ _ => 0
    catOccur := fun _ => 1
    catRatio := fun _ => 1/5
    catAmount := fun _ _ _ _ => 0
    demandShock := fun _ _ => 0
    priceReturn := fun _ _ => 0 }

/-- The Bool predicate selecting the catastrophe claims of one line. -/
def isCatOf (l : LineId) (c : Claim) : Bool :=
  decide (c.type = ClaimType.catastrophe) && decide (c.line = l)

/-- A concrete state for the catastrophe scenario: 20 CA home policies and
50 CA auto policies on the books. -/
def catTestState : GameLogic.GameState :=
  { simTestState with
      player_company :=
        { initialCompany with
            policies_sold := [(⟨"CA", Line.home⟩, 20), (⟨"CA", Line.auto⟩, 50)] } }

/-- A randomness realisation in which the CA catastrophe fires: the
uniform draw 1/1000 is below the quarterly risk 1/400, the affected ratio
drawn is 1/4, catastrophe amounts come out as 100000 + k, and two regular
auto claims of 500 + k are also drawn (they must not pollute the filtered
catastrophe list). -/
def catRng : GameLogic.Rng :=
  { rngZero with
      catOccur := fun _ => 1/1000
      catRatio := fun _ => 1/4
      catAmount := fun _ _ _ k => 100000 + k
      poissonCount := fun l => if l.line = Line.auto then 2 else 0
      regularAmount := fun _ _ _ k => 500 + k }

namespace Models

/-- `models.AICompetitor`: a `Company` subclass carrying the risk profile
and the strategy parameters `__init__` derives from it, plus its own
(unserialised) financial history. -/
structure AICompetitor extends Company where
  risk_profile : String
  target_market_share : ℚ
  price_sensitivity : ℚ
  advertising_ratio : ℚ
  financial_history : List FinancialReport

/-- `models.AICompetitor.__init__`: empty books; strategy parameters
derived from the risk profile (0.4/1.5/0.15 aggressive, 0.2/0.8/0.05
conservative, 0.3/1.0/0.10 balanced or anything else). -/
def AICompetitor.init (name : String) (cash : ℚ) (risk_profile : String) : AICompetitor :=
  { name := name
    cash := cash
    investments := fun _ => 0
    policies_sold := []
    claims_history := []
    premium_rates := fun _ => none
    advertising_budget := fun _ => 0
    risk_profile := risk_profile
    target_market_share :=
      if risk_profile = "aggressive" then 2/5
      else if risk_profile = "conservative" then 1/5 else 3/10
    price_sensitivity :=
      if risk_profile = "aggressive" then 3/2
      else if risk_profile = "conservative" then 4/5 else 1
    advertising_ratio :=
      if risk_profile = "aggressive" then 3/20
      else if risk_profile = "conservative" then 1/20 else 1/10
    financial_history := [] }

/-- The per-line body of `models.AICompetitor._update_pricing` when a rate
is already held: undercut or raise toward a target, clamp to 85% of the
base rate, then clamp the change to ±10% of the current rate (Python's
0.95, 0.1, 1.02, 0.85 written as the equal fractions). -/
def AICompetitor.newRateForLine (c : AICompetitor) (segment : MarketSegment)
    (base_rate player_rate current_rate : ℚ) (current_policies : ℤ) : ℚ :=
  let market_share : ℚ :=
    if 0 < segment.market_size then (current_policies : ℚ) / (segment.market_size : ℚ) else 0
  let target_rate :=
    if market_share < c.target_market_share then
      min (player_rate * (19/20)) (base_rate * (1 - (1/10) * c.price_sensitivity))
    else
      max base_rate (player_rate * (51/50))
  let target_rate2 := max target_rate (base_rate * (17/20))
  let max_change := current_rate * (1/10)
  clip target_rate2 (current_rate - max_change) (current_rate + max_change)

/-- One iteration of the `_update_pricing` loop: initialise an unset rate
to the base market rate, otherwise move it by `newRateForLine`. -/
def pricingStep (base_market_rates : LineId → ℚ) (player : Company)
    (c : AICompetitor) (e : LineId × MarketSegment) : AICompetitor :=
  match c.premium_rates e.1 with
  | none =>
      { c with premium_rates := fun l =>
          if l = e.1 then some (base_market_rates e.1) else c.premium_rates l }
  | some current_rate =>
      let base_rate := base_market_rates e.1
      let player_rate := (player.premium_rates e.1).getD base_rate
      let current_policies := alistGetD c.policies_sold e.1 0
      { c with premium_rates := fun l =>
          if l = e.1
          then some (c.newRateForLine e.2 base_rate player_rate current_rate current_policies)
          else c.premium_rates l }

/-- `models.AICompetitor._update_pricing`, over the market segments and
base rates the game state supplies. -/
def AICompetitor.update_pricing (c : AICompetitor)
    (market_segments : List (LineId × MarketSegment))
    (base_market_rates : LineId → ℚ) (player : Company) : AICompetitor :=
  market_segments.foldl (pricingStep base_market_rates player) c

/-- `models.GameState` (the version with AI competitors). -/
structure GameState where
  current_turn : ℕ
  player_company : Company
  ai_competitors : List AICompetitor
  market_segments : List (LineId × MarketSegment)
  investment_assets : List (String × AssetPy.Asset)
  states : List (String × StateInfo)
  base_market_rates : LineId → ℚ
  claim_distributions : LineId → ClaimDist
  unlocked_states : String → Bool
  financial_history : List FinancialReport

/-- The inner competitor loop of `models.GameState._update_policies`:
each competitor is assigned
`int(min(its demand, remaining_demand / n))` policies for the line
(`n` = the fixed total number of competitors) and the remaining demand
shrinks accordingly.  Returns the updated competitors and the final
remaining demand. -/
def allocCompetitors (expQ : ℚ → ℚ) (seg : MarketSegment) (base : ℚ)
    (all_rates : List ℚ) (n : ℕ) (line : LineId) :
    List AICompetitor → ℤ → List AICompetitor × ℤ
  | [], remaining => ([], remaining)
  | comp :: rest, remaining =>
      let competitor_premium := (comp.premium_rates line).getD base
      let competitor_demand := seg.calculate_demand expQ competitor_premium all_rates
      let competitor_policies :=
        pyInt (min (competitor_demand : ℚ) ((remaining : ℚ) / (n : ℚ)))
      let comp2 := { comp with
        policies_sold := dictSet comp.policies_sold line competitor_policies }
      let r := allocCompetitors expQ seg base all_rates n line rest
        (remaining - competitor_policies)
      (comp2 :: r.1, r.2)

/-- One iteration of the `models.GameState._update_policies` segment loop,
threading the player's new policy dict and the competitor list.  In an
unlocked state: the player gets `int(calculate_demand(...) * variation)`
policies; competitors are (re)assigned only when the remaining demand
`market_size - player_policies` is strictly positive, otherwise they keep
their stale counts.  In a locked state everyone gets 0. -/
def policiesStep (s : GameState) (expQ : ℚ → ℚ) (variation : LineId → ℚ)
    (acc : List (LineId × ℤ) × List AICompetitor) (e : LineId × MarketSegment) :
    List (LineId × ℤ) × List AICompetitor :=
  if s.unlocked_states e.1.state then
    let base := s.base_market_rates e.1
    let all_rates := base :: ((s.player_company.premium_rates e.1).getD base)
        :: acc.2.map (fun c => (c.premium_rates e.1).getD base)
    let player_premium := (s.player_company.premium_rates e.1).getD base
    let potential_policies := e.2.calculate_demand expQ player_premium all_rates
    let player_policies := pyInt ((potential_policies : ℚ) * variation e.1)
    let remaining := (e.2.market_size : ℤ) - player_policies
    if 0 < remaining then
      (dictSet acc.1 e.1 player_policies,
       (allocCompetitors expQ e.2 base all_rates acc.2.length e.1 acc.2 remaining).1)
    else (dictSet acc.1 e.1 player_policies, acc.2)
  else
    (dictSet acc.1 e.1 0,
     acc.2.map (fun c => { c with policies_sold := dictSet c.policies_sold e.1 0 }))

/-- `models.GameState._update_policies` (lines 294-331). -/
def GameState.update_policies (s : GameState) (expQ : ℚ → ℚ) (variation : LineId → ℚ) :
    GameState :=
  let step := s.market_segments.foldl (policiesStep s expQ variation) ([], s.ai_competitors)
  { s with
      player_company := { s.player_company with policies_sold := step.1 },
      ai_competitors := step.2 }

/-- Total policies allocated in one line across the player and all AI
competitors. -/
def totalPoliciesInSegment (s : GameState) (l : LineId) : ℤ :=
  alistGetD s.player_company.policies_sold l 0
    + (s.ai_competitors.map (fun c => alistGetD c.policies_sold l 0)).sum

/-- The player's allocation for one line as `_update_policies` computes it
(the competitor rates it reads are unchanged throughout the loop). -/
def playerAllocFor (s : GameState) (expQ : ℚ → ℚ) (variation : LineId → ℚ)
    (l : LineId) (seg : MarketSegment) : ℤ :=
  let base := s.base_market_rates l
  let all_rates := base :: ((s.player_company.premium_rates l).getD base)
      :: s.ai_competitors.map (fun c => (c.premium_rates l).getD base)
  pyInt ((seg.calculate_demand expQ ((s.player_company.premium_rates l).getD base)
    all_rates : ℚ) * variation l)

/-- The dict produced by `models.Company.to_dict`. -/
structure CompanyDict where
  name : String
  cash : ℚ
  investments : String → ℤ
  policies_sold : List (LineId × ℤ)
  claims_history : List Claim
  premium_rates : LineId → Option ℚ
  advertising_budget : LineId → ℚ

/-- `models.Company.to_dict`. -/
def companyToDict (c : Company) : CompanyDict :=
  { name := c.name
    cash := c.cash
    investments := c.investments
    policies_sold := c.policies_sold
    claims_history := c.claims_history
    premium_rates := c.premium_rates
    advertising_budget := c.advertising_budget }

/-- `models.Company.from_dict`. -/
def companyFromDict (d : CompanyDict) : Company :=
  { name := d.name
    cash := d.cash
    investments := d.investments
    policies_sold := d.policies_sold
    claims_history := d.claims_history
    premium_rates := d.premium_rates
    advertising_budget := d.advertising_budget }

/-- The dict produced by `models.AICompetitor.to_dict`: the base company
dict plus the risk profile. -/
structure AICompetitorDict extends CompanyDict where
  risk_profile : String

/-- `models.AICompetitor.to_dict`. -/
def aiToDict (c : AICompetitor) : AICompetitorDict :=
  { companyToDict c.toCompany with risk_profile := c.risk_profile }

/-- `models.AICompetitor.from_dict`: rebuild through `__init__` with the
saved risk profile (strategy parameters re-derived, financial history
reset), then restore the five saved book fields. -/
def aiFromDict (d : AICompetitorDict) : AICompetitor :=
  let competitor := AICompetitor.init d.name d.cash d.risk_profile
  { competitor with
      investments := d.investments
      policies_sold := d.policies_sold
      claims_history := d.claims_history
      premium_rates := d.premium_rates
      advertising_budget := d.advertising_budget }

/-- The per-segment dict written by `models.GameState.to_dict`. -/
structure SegmentDict where
  name : String
  base_risk : ℚ
  price_sensitivity : ℚ
  market_size : ℕ
  current_demand : ℕ

def segToDict (seg : MarketSegment) : SegmentDict :=
  { name := seg.name
    base_risk := seg.base_risk
    price_sensitivity := seg.price_sensitivity
    market_size := seg.market_size
    current_demand := seg.current_demand }

/-- `MarketSegment(**seg_data)` in `models.GameState.from_dict`. -/
def segFromDict (d : SegmentDict) : MarketSegment :=
  { name := d.name
    base_risk := d.base_risk
    price_sensitivity := d.price_sensitivity
    market_size := d.market_size
    current_demand := d.current_demand }

/-- The per-asset dict written by `models.GameState.to_dict` (price
history and net trades are not persisted). -/
structure AssetDict where
  name : String
  current_price : ℚ
  dividend_yield : ℚ
  volatility : ℚ

def assetToDict (a : AssetPy.Asset) : AssetDict :=
  { name := a.name
    current_price := a.current_price
    dividend_yield := a.dividend_yield
    volatility := a.volatility }

/-- `Asset(**asset_data)` in `models.GameState.from_dict`: rebuilt through
`asset.Asset.__init__`, so `price_history` restarts at the saved price and
`net_trades` at 0. -/
def assetFromDict (d : AssetDict) : AssetPy.Asset :=
  AssetPy.Asset.init d.name d.current_price d.dividend_yield d.volatility

/-- `FinancialReport.to_dict` is `dataclasses.asdict`: exactly the six
stored fields, i.e. the record itself. -/
def reportToDict (r : FinancialReport) : FinancialReport := r

/-- `FinancialReport.from_dict` rebuilds from exactly those fields. -/
def reportFromDict (r : FinancialReport) : FinancialReport := r

/-- The snapshot dict written by `models.GameState.to_dict`. -/
structure GameStateDict where
  current_turn : ℕ
  player_company : CompanyDict
  ai_competitors : List AICompetitorDict
  market_segments : List (LineId × SegmentDict)
  investment_assets : List (String × AssetDict)
  states : List (String × StateInfo)
  base_market_rates : LineId → ℚ
  claim_distributions : LineId → ClaimDist
  unlocked_states : String → Bool
  financial_history : List FinancialReport

/-- `models.GameState.to_dict` (lines 404-426). -/
def GameState.to_dict (s : GameState) : GameStateDict :=
  { current_turn := s.current_turn
    player_company := companyToDict s.player_company
    ai_competitors := s.ai_competitors.map aiToDict
    market_segments := s.market_segments.map (fun e => (e.1, segToDict e.2))
    investment_assets := s.investment_assets.map (fun e => (e.1, assetToDict e.2))
    states := s.states
    base_market_rates := s.base_market_rates
    claim_distributions := s.claim_distributions
    unlocked_states := s.unlocked_states
    financial_history := s.financial_history.map reportToDict }

/-- `models.GameState.from_dict` (lines 428-459). -/
def GameState.from_dict (d : GameStateDict) : GameState :=
  { current_turn := d.current_turn
    player_company := companyFromDict d.player_company
    ai_competitors := d.ai_competitors.map aiFromDict
    market_segments := d.market_segments.map (fun e => (e.1, segFromDict e.2))
    investment_assets := d.investment_assets.map (fun e => (e.1, assetFromDict e.2))
    states := d.states
    base_market_rates := d.base_market_rates
    claim_distributions := d.claim_distributions
    unlocked_states := d.unlocked_states
    financial_history := d.financial_history.map reportFromDict }

/-- The persisted fields of an AI competitor (the claim's list: the seven
company fields plus `risk_profile`). -/
def persistedAI (c : AICompetitor) :
    String × ℚ × (String → ℤ) × List (LineId × ℤ) × List Claim
      × (LineId → Option ℚ) × (LineId → ℚ) × String :=
  (c.name, c.cash, c.investments, c.policies_sold, c.claims_history,
    c.premium_rates, c.advertising_budget, c.risk_profile)

/-- The persisted fields of an investment asset. -/
def persistedAsset (a : AssetPy.Asset) : String × ℚ × ℚ × ℚ :=
  (a.name, a.current_price, a.dividend_yield, a.volatility)

end Models

/-- An AI competitor with a stale book of 5 CA home policies. -/
def staleComp (nm : String) : Models.AICompetitor :=
  { Models.AICompetitor.init nm 1000000 "balanced" with
      policies_sold := [(⟨"CA", Line.home⟩, 5)] }

/-- The CA home segment of the demand-allocation scenario: capacity 100 at
full demand. -/
def allocTestSeg : MarketSegment :=
  { name := "Home Insurance - California", base_risk := 1/20,
    price_sensitivity := 6/5, market_size := 100, current_demand := 100 }

/-- A concrete `models.GameState` for the demand-allocation scenario: one
CA home segment of capacity 100 at full demand, all rates at the base
rate, three competitors holding 5 stale policies each. -/
def allocTestState : Models.GameState :=
  { current_turn := 0
    player_company := initialCompany
    ai_competitors :=
      [staleComp "Aggressive Insurance Co.", staleComp "Balanced Insurance Co.",
        staleComp "Conservative Insurance Co."]
    market_segments := [(⟨"CA", Line.home⟩, allocTestSeg)]
    investment_assets := []
    states := statesTable
    base_market_rates := fun _ => 900
    claim_distributions := fun _ =>
      { mean := 87/10, sigma := 1/2, cat_mean := 62/5, cat_risk := 1/20 }
    unlocked_states := fun i => i = "CA"
    financial_history := [] }

/-- A CA auto segment for the AI pricing scenarios. -/
def priceTestSeg : MarketSegment :=
  { name := "Auto Insurance - California", base_risk := 3/20,
    price_sensitivity := 3/2, market_size := 100, current_demand := 100 }

/-- A balanced competitor holding a CA auto rate of $400 (far below the
$900 base rate, as a loaded save may contain). -/
def priceTestComp : Models.AICompetitor :=
  { Models.AICompetitor.init "Balanced Insurance Co." 1000000 "balanced" with
      premium_rates := fun l => if l = ⟨"CA", Line.auto⟩ then some 400 else none }

/-- A balanced competitor holding the CA auto base rate of $900. -/
def priceTestComp2 : Models.AICompetitor :=
  { Models.AICompetitor.init "Balanced Insurance Co." 1000000 "balanced" with
      premium_rates := fun l => if l = ⟨"CA", Line.auto⟩ then some 900 else none }

theorem alistGet?_dictSet_self {K V : Type} [DecidableEq K]
    (l : List (K × V)) (k : K) (v : V) :
    alistGet? (dictSet l k v) k = some v := by
  induction l with
  | nil => simp [dictSet, alistGet?]
  | cons hd t ih =>
      obtain ⟨k₁, v₁⟩ := hd
      by_cases h : k₁ = k
      · simp [dictSet, h, alistGet?]
      · simp [dictSet, h, alistGet?, ih]

theorem alistGet?_dictSet_other {K V : Type} [DecidableEq K]
    (l : List (K × V)) (k k₀ : K) (v : V) (hkk : k ≠ k₀) :
    alistGet? (dictSet l k v) k₀ = alistGet? l k₀ := by
  induction l with
  | nil => simp [dictSet, alistGet?, hkk]
  | cons hd t ih =>
      obtain ⟨k₁, v₁⟩ := hd
      by_cases h : k₁ = k
      · subst h
        simp [dictSet, alistGet?, hkk]
      · simp [dictSet, h, alistGet?, ih]

theorem pyInt_nonneg {q : ℚ} (h : 0 ≤ q) : 0 ≤ pyInt q := by
  simp only [pyInt, if_pos h]
  exact Int.le_floor.2 (by exact_mod_cast h)

theorem pyInt_le {q : ℚ} (h : 0 ≤ q) : (pyInt q : ℚ) ≤ q := by
  simp only [pyInt, if_pos h]
  exact Int.floor_le q

/-- Claim C3: `unlock_state` fails with no change to cash or to the
unlocked flags when the state is already unlocked or cash is below the
entry cost (so a second call after a success never double-charges); on
success it deducts exactly `entry_cost` and sets the flag; and no
`GameState` operation (`unlock_state`, `update`, `buy_asset`,
`sell_asset`) ever clears an unlocked flag. -/
theorem C3_unlock_state_safe (s : GameLogic.GameState) (state_id : String) :
    (s.unlocked_states state_id = true →
      (s.unlock_state state_id).2 = false ∧
      (s.unlock_state state_id).1.player_company.cash = s.player_company.cash ∧
      (s.unlock_state state_id).1.unlocked_states = s.unlocked_states) ∧
    (∀ info, alistGet? s.states state_id = some info →
      s.player_company.cash < info.entry_cost →
      (s.unlock_state state_id).2 = false ∧
      (s.unlock_state state_id).1.player_company.cash = s.player_company.cash ∧
      (s.unlock_state state_id).1.unlocked_states = s.unlocked_states) ∧
    (∀ info, alistGet? s.states state_id = some info →
      s.unlocked_states state_id = false →
      info.entry_cost ≤ s.player_company.cash →
      (s.unlock_state state_id).2 = true ∧
      (s.unlock_state state_id).1.player_company.cash =
        s.player_company.cash - info.entry_cost ∧
      (s.unlock_state state_id).1.unlocked_states state_id = true) ∧
    (∀ i, s.unlocked_states i = true →
      (s.unlock_state state_id).1.unlocked_states i = true) ∧
    (∀ rng, (GameLogic.GameState.update s rng).unlocked_states = s.unlocked_states) ∧
    (∀ n sh, (s.buy_asset n sh).1.unlocked_states = s.unlocked_states ∧
      (s.sell_asset n sh).1.unlocked_states = s.unlocked_states) := by
  refine ⟨?_, ?_, ?_, ?_, ?_, ?_⟩
  · intro h
    unfold GameLogic.GameState.unlock_state
    cases halist : alistGet? s.states state_id with
    | none => exact ⟨rfl, rfl, rfl⟩
    | some info => simp [h]
  · intro info halist hcash
    unfold GameLogic.GameState.unlock_state
    rw [halist]
    by_cases h : s.unlocked_states state_id
    · simp [h]
    · simp [h, not_le.mpr hcash]
  · intro info halist hflag hcash
    unfold GameLogic.GameState.unlock_state
    rw [halist]
    simp [hflag, hcash]
  · intro i hi
    unfold GameLogic.GameState.unlock_state
    cases halist : alistGet? s.states state_id with
    | none => exact hi
    | some info =>
        by_cases h : s.unlocked_states state_id
        · simpa [h] using hi
        · by_cases hc : info.entry_cost ≤ s.player_company.cash
          · simp only [h, hc]
            simp only [Bool.false_eq_true, if_false, if_true]
            by_cases hii : i = state_id <;> simp [hii, hi]
          · simpa [h, hc] using hi
  · intro rng
    rfl
  · intro n sh
    constructor
    · unfold GameLogic.GameState.buy_asset
      cases halist : alistGet? s.investment_assets n with
      | none => rfl
      | some a => by_cases h : s.player_company.cash < a.current_price * (sh : ℚ) <;> simp [h]
    · unfold GameLogic.GameState.sell_asset
      cases halist : alistGet? s.investment_assets n with
      | none => rfl
      | some a => by_cases h : s.player_company.investments n < sh <;> simp [h]

/-- Witness for C3 at a concrete state: unlocking FL (entry cost $300k,
cash $1M) succeeds and charges exactly $300k; the immediate second call
fails and charges nothing. -/
theorem C3_unlock_state_witness :
    (unlockTestState.unlock_state "FL").2 = true ∧
    (unlockTestState.unlock_state "FL").1.player_company.cash = 700000 ∧
    ((unlockTestState.unlock_state "FL").1.unlock_state "FL").2 = false ∧
    ((unlockTestState.unlock_state "FL").1.unlock_state "FL").1.player_company.cash
      = 700000 := by
  have h₁ := (C3_unlock_state_safe unlockTestState "FL").2.2.1
    { name := "Florida", catastrophe_risk := 1/20, cat_severity := 62/5,
      market_size_multiplier := 1, entry_cost := 300000 }
    (by simp [unlockTestState, statesTable, alistGet?])
    (by simp [unlockTestState])
    (by norm_num [unlockTestState, initialCompany])
  have hcash : (unlockTestState.unlock_state "FL").1.player_company.cash = 700000 := by
    rw [h₁.2.1]
    norm_num [unlockTestState, initialCompany]
  have h₂ := (C3_unlock_state_safe (unlockTestState.unlock_state "FL").1 "FL").1 h₁.2.2
  exact ⟨h₁.1, hcash, h₂.1, by rw [h₂.2.1, hcash]⟩

/-- Claim C5 (code bug): successful `buy_asset` / `sell_asset` calls never
record the trade — they leave `investment_assets` (hence any order-flow
state) completely unchanged, for every state, asset id and share count —
even though `asset.Asset.record_trade` exists and would add the signed
share delta to `net_trades`.  No code in the repository calls
`record_trade`, so `net_trades` can never accumulate the trades of a
turn. -/
theorem C5_trades_never_recorded :
    (∀ (s : GameLogic.GameState) (n : String) (sh : ℤ),
      (s.buy_asset n sh).1.investment_assets = s.investment_assets ∧
      (s.sell_asset n sh).1.investment_assets = s.investment_assets) ∧
    (∀ (a : AssetPy.Asset) (sh : ℤ),
      (a.record_trade sh).net_trades = a.net_trades + sh) := by
  constructor
  · intro s n sh
    constructor
    · unfold GameLogic.GameState.buy_asset
      cases halist : alistGet? s.investment_assets n with
      | none => rfl
      | some a => by_cases h : s.player_company.cash < a.current_price * (sh : ℚ) <;> simp [h]
    · unfold GameLogic.GameState.sell_asset
      cases halist : alistGet? s.investment_assets n with
      | none => rfl
      | some a => by_cases h : s.player_company.investments n < sh <;> simp [h]
  · intro a sh
    rfl

/-- Claim C6 (code bug): `buy_asset` and `sell_asset` accept negative
share counts and mutate state.  At the concrete state with $1,000,000 cash
and SP500 at $450: buying −10 shares succeeds, *credits* $4,500 and sets
the holding to −10; selling −10 shares succeeds, debits $4,500 and sets
the holding to +10.  The claimed rejection before any mutation does not
happen. -/
theorem C6_negative_shares_accepted :
    (tradeTestState.buy_asset "SP500" (-10)).2 = true ∧
    (tradeTestState.buy_asset "SP500" (-10)).1.player_company.cash = 1004500 ∧
    (tradeTestState.buy_asset "SP500" (-10)).1.player_company.investments "SP500" = -10 ∧
    (tradeTestState.sell_asset "SP500" (-10)).2 = true ∧
    (tradeTestState.sell_asset "SP500" (-10)).1.player_company.cash = 995500 ∧
    (tradeTestState.sell_asset "SP500" (-10)).1.player_company.investments "SP500" = 10 := by
  refine ⟨?_, ?_, ?_, ?_, ?_, ?_⟩ <;>
    norm_num [GameLogic.GameState.buy_asset, GameLogic.GameState.sell_asset,
      tradeTestState, initialCompany, alistGet?]

theorem alistGet?_cons {K V : Type} [DecidableEq K] (e : K × V) (t : List (K × V)) (k₀ : K) :
    alistGet? (e :: t) k₀ = if e.1 = k₀ then some e.2 else alistGet? t k₀ := by
  obtain ⟨k, v⟩ := e
  rfl

theorem alistGet?_map_of_get {V W : Type} (f : String × V → String × W)
    (hk : ∀ e, (f e).1 = e.1) (l : List (String × V)) (k : String) (v : V)
    (h : alistGet? l k = some v) :
    alistGet? (l.map f) k = some (f (k, v)).2 := by
  induction l with
  | nil => simp [alistGet?] at h
  | cons hd t ih =>
      obtain ⟨k₁, v₁⟩ := hd
      rw [List.map_cons, alistGet?_cons, hk (k₁, v₁)]
      rw [alistGet?_cons] at h
      by_cases hkk : k₁ = k
      · subst hkk
        simp only [if_pos rfl] at h ⊢
        obtain rfl : v₁ = v := by injection h
        rfl
      · simp only [if_neg hkk] at h ⊢
        exact ih h

theorem updateHeldAsset_key (s : GameLogic.GameState) (rng : GameLogic.Rng)
    (e : String × GameLogic.Asset) : (GameLogic.updateHeldAsset s rng e).1 = e.1 := by
  unfold GameLogic.updateHeldAsset
  split <;> rfl

theorem update_price_history_len (a : GameLogic.Asset) (r : ℚ) :
    (a.update_price r).price_history.length = a.price_history.length + 1 := by
  simp [GameLogic.Asset.update_price]

/-- The investments map is untouched by the first three pipeline steps. -/
theorem investments_through_first_steps (s : GameLogic.GameState) (rng : GameLogic.Rng) :
    (((s.update_policies rng).generate_claims rng).update_market_demand rng).player_company.investments
      = s.player_company.investments := rfl

/-- The asset table is untouched by the first three pipeline steps. -/
theorem assets_through_first_steps (s : GameLogic.GameState) (rng : GameLogic.Rng) :
    (((s.update_policies rng).generate_claims rng).update_market_demand rng).investment_assets
      = s.investment_assets := rfl

/-- Claim C10: in a single `GameState.update`, every asset held in
positive quantity has its price updated twice (its price history grows by
exactly two entries), and the quarterly dividend income is credited to the
player's cash twice — once by the direct `_calculate_investment_returns`
step and once more by the call `_generate_financial_report` makes, the
second credit computed at the once-updated prices. -/
theorem C10_double_investment_update (s : GameLogic.GameState) (rng : GameLogic.Rng)
    (name : String) (a : GameLogic.Asset)
    (ha : alistGet? s.investment_assets name = some a)
    (hpos : 0 < s.player_company.investments name) :
    (∃ b, alistGet? (GameLogic.GameState.update s rng).investment_assets name = some b ∧
        b.price_history.length = a.price_history.length + 2) ∧
    (GameLogic.GameState.update s rng).player_company.cash =
      (((s.update_policies rng).generate_claims rng).update_market_demand rng).player_company.cash
        + (((s.update_policies rng).generate_claims rng).update_market_demand rng).investmentIncome
        + ((((s.update_policies rng).generate_claims rng).update_market_demand
            rng).calculate_investment_returns rng).1.investmentIncome := by
  constructor
  · set s3 := ((s.update_policies rng).generate_claims rng).update_market_demand rng with hs3
    have h3assets : s3.investment_assets = s.investment_assets := rfl
    have h3inv : s3.player_company.investments = s.player_company.investments := rfl
    have hupd : (GameLogic.GameState.update s rng).investment_assets
        = (s3.investment_assets.map (GameLogic.updateHeldAsset s3 rng)).map
            (GameLogic.updateHeldAsset (s3.calculate_investment_returns rng).1 rng) := rfl
    have ha3 : alistGet? s3.investment_assets name = some a := by rw [h3assets]; exact ha
    have hstep1 := alistGet?_map_of_get (GameLogic.updateHeldAsset s3 rng)
      (updateHeldAsset_key s3 rng) s3.investment_assets name a ha3
    have hstep2 := alistGet?_map_of_get
      (GameLogic.updateHeldAsset (s3.calculate_investment_returns rng).1 rng)
      (updateHeldAsset_key (s3.calculate_investment_returns rng).1 rng)
      (s3.investment_assets.map (GameLogic.updateHeldAsset s3 rng)) name
      (GameLogic.updateHeldAsset s3 rng (name, a)).2 hstep1
    refine ⟨_, by rw [hupd]; exact hstep2, ?_⟩
    have h4inv : (s3.calculate_investment_returns rng).1.player_company.investments
        = s.player_company.investments := rfl
    have hposa : 0 < s3.player_company.investments name := by rw [h3inv]; exact hpos
    have hone : (GameLogic.updateHeldAsset s3 rng (name, a)).2
        = a.update_price (rng.priceReturn name a.price_history.length) := by
      unfold GameLogic.updateHeldAsset
      simp [hposa]
    rw [hone]
    have hposb : 0 < (s3.calculate_investment_returns rng).1.player_company.investments name := by
      rw [h4inv]; exact hpos
    unfold GameLogic.updateHeldAsset
    simp only [hposb, if_pos]
    rw [update_price_history_len, update_price_history_len]
  · rfl

/-- Witness for C10 at the concrete state: the SP500 asset (held 10
shares, history length 1) ends the turn with history length 3 — its price
was updated twice in the single `update` call. -/
theorem C10_double_investment_witness :
    alistGet? simTestState.investment_assets "SP500"
      = some { name := "SP 500 ETF", current_price := 450, dividend_yield := 3/200,
               volatility := 3/20, price_history := [450] } ∧
    0 < simTestState.player_company.investments "SP500" ∧
    (∃ b, alistGet? (GameLogic.GameState.update simTestState rngZero).investment_assets "SP500"
        = some b ∧ b.price_history.length = 3) := by
  have h1 : alistGet? simTestState.investment_assets "SP500"
      = some { name := "SP 500 ETF", current_price := 450, dividend_yield := 3/200,
               volatility := 3/20, price_history := [(450 : ℚ)] } := by
    simp [simTestState, alistGet?]
  have h2 : 0 < simTestState.player_company.investments "SP500" := by
    simp [simTestState, initialCompany]
  have h3 := (C10_double_investment_update simTestState rngZero "SP500" _ h1 h2).1
  exact ⟨h1, h2, by simpa using h3⟩

/-- The cash a turn ends with is the post-claims cash plus two investment
income credits (definitional consequence of the pipeline shape). -/
theorem update_cash_decomposition (s : GameLogic.GameState) (rng : GameLogic.Rng) :
    (GameLogic.GameState.update s rng).player_company.cash =
      (((s.update_policies rng).generate_claims rng).update_market_demand rng).player_company.cash
        + (((s.update_policies rng).generate_claims rng).update_market_demand rng).investmentIncome
        + ((((s.update_policies rng).generate_claims rng).update_market_demand
            rng).calculate_investment_returns rng).1.investmentIncome := rfl

/-- Claim C1 (code bug): a full turn at the concrete state (premium
revenue $337,500, zero claims, zero advertising, no trades, quarterly
investment income $16,875/1000 · ... = 135/8 = $16.875) leaves cash
`1,000,000 + 337,500 + 135/8 + 135/8`: the investment income is credited
twice, so `cash_after ≠ cash_before + premium − claims + income` with the
single income credit the claim requires. -/
theorem C1_cash_update_double_credits_income :
    (simTestState.update_policies rngZero).premiumRevenue = 337500 ∧
    (GameLogic.GameState.update simTestState rngZero).player_company.claims_history = [] ∧
    simTestState.investmentIncome = 135/8 ∧
    (GameLogic.GameState.update simTestState rngZero).player_company.cash
      = 1000000 + 337500 + 135/8 + 135/8 ∧
    (GameLogic.GameState.update simTestState rngZero).player_company.cash
      ≠ simTestState.player_company.cash + 337500 - 0 + 135/8 := by
  have hpol : (simTestState.update_policies rngZero).player_company.policies_sold
      = [(⟨"CA", Line.home⟩, (1500 : ℤ))] := by
    simp [GameLogic.GameState.update_policies, simTestState, rngZero, initialCompany,
      MarketSegment.calculate_demand, listMean, pyInt, dictSet]
    norm_num
  have hprem : (simTestState.update_policies rngZero).premiumRevenue = 337500 := by
    rw [GameLogic.GameState.premiumRevenue, hpol]
    norm_num [GameLogic.GameState.update_policies, simTestState, initialCompany]
  have hclaims : (simTestState.update_policies rngZero).generatedClaims rngZero = [] := by
    rw [GameLogic.GameState.generatedClaims, hpol]
    simp [GameLogic.GameState.regularClaimsFor, GameLogic.GameState.catClaimsFor,
      GameLogic.GameState.update_policies, simTestState, rngZero, statesTable, alistGet?]
    norm_num
  have hcash2 : ((simTestState.update_policies rngZero).generate_claims
      rngZero).player_company.cash = 1337500 := by
    rw [GameLogic.GameState.generate_claims]
    simp only [Company.process_claims, hclaims, hprem]
    norm_num [GameLogic.GameState.update_policies, simTestState, initialCompany]
  have hhist : ((simTestState.update_policies rngZero).generate_claims
      rngZero).player_company.claims_history = [] := by
    rw [GameLogic.GameState.generate_claims]
    simp only [Company.process_claims, hclaims]
    simp [GameLogic.GameState.update_policies, simTestState, initialCompany]
  have hinc : simTestState.investmentIncome = 135/8 := by
    norm_num [GameLogic.GameState.investmentIncome, simTestState, initialCompany,
      GameLogic.Asset.get_quarterly_income]
  have hi3 : (((simTestState.update_policies rngZero).generate_claims
      rngZero).update_market_demand rngZero).player_company.investments
      = simTestState.player_company.investments := rfl
  have ha3 : (((simTestState.update_policies rngZero).generate_claims
      rngZero).update_market_demand rngZero).investment_assets
      = simTestState.investment_assets := rfl
  have hinc3 : (((simTestState.update_policies rngZero).generate_claims
      rngZero).update_market_demand rngZero).investmentIncome = 135/8 := by
    rw [GameLogic.GameState.investmentIncome, ha3]
    simp only [hi3]
    norm_num [simTestState, initialCompany, GameLogic.Asset.get_quarterly_income]
  have hinc4 : ((((simTestState.update_policies rngZero).generate_claims
      rngZero).update_market_demand rngZero).calculate_investment_returns
        rngZero).1.investmentIncome = 135/8 := by
    have h4 : ((((simTestState.update_policies rngZero).generate_claims
        rngZero).update_market_demand rngZero).calculate_investment_returns
          rngZero).1.investmentIncome
        = (((((simTestState.update_policies rngZero).generate_claims
            rngZero).update_market_demand rngZero).investment_assets.map
              (GameLogic.updateHeldAsset (((simTestState.update_policies rngZero).generate_claims
                rngZero).update_market_demand rngZero) rngZero)).map (fun e =>
            if 0 < (((simTestState.update_policies rngZero).generate_claims
                rngZero).update_market_demand rngZero).player_company.investments e.1
            then e.2.get_quarterly_income
              ((((simTestState.update_policies rngZero).generate_claims
                rngZero).update_market_demand rngZero).player_company.investments e.1)
            else 0)).sum := rfl
    have hassets : simTestState.investment_assets
        = [("SP500", { name := "SP 500 ETF", current_price := 450, dividend_yield := 3/200,
                       volatility := 3/20, price_history := [(450 : ℚ)] })] := rfl
    have hpos : (0 : ℤ) < (((simTestState.update_policies rngZero).generate_claims
        rngZero).update_market_demand rngZero).player_company.investments "SP500" := by
      rw [hi3]
      norm_num [simTestState, initialCompany]
    have hmap : ((((simTestState.update_policies rngZero).generate_claims
        rngZero).update_market_demand rngZero).investment_assets.map
          (GameLogic.updateHeldAsset (((simTestState.update_policies rngZero).generate_claims
            rngZero).update_market_demand rngZero) rngZero))
        = [("SP500", { name := "SP 500 ETF", current_price := 450 * (1 + 0),
                       dividend_yield := 3/200, volatility := 3/20,
                       price_history := [450, 450 * (1 + 0)] })] := by
      rw [ha3, hassets]
      simp only [List.map_cons, List.map_nil, GameLogic.updateHeldAsset, hpos, if_pos]
      simp [GameLogic.Asset.update_price, rngZero]
    rw [h4, hmap]
    simp only [List.map_cons, List.map_nil, hi3]
    norm_num [simTestState, initialCompany, GameLogic.Asset.get_quarterly_income]
  have hcash3 : (((simTestState.update_policies rngZero).generate_claims
      rngZero).update_market_demand rngZero).player_company.cash = 1337500 := hcash2
  have hfinal : (GameLogic.GameState.update simTestState rngZero).player_company.cash
      = 1000000 + 337500 + 135/8 + 135/8 := by
    rw [update_cash_decomposition, hcash3, hinc3, hinc4]
    norm_num
  have hfinalhist : (GameLogic.GameState.update simTestState rngZero).player_company.claims_history
      = [] := hhist
  refine ⟨hprem, hfinalhist, hinc, hfinal, ?_⟩
  rw [hfinal]
  have : simTestState.player_company.cash = 1000000 := rfl
  rw [this]
  norm_num

theorem mem_regularClaimsFor {s : GameLogic.GameState} {rng : GameLogic.Rng}
    {l : LineId} {c : Claim} (h : c ∈ s.regularClaimsFor rng l) :
    c.type = ClaimType.regular := by
  simp only [GameLogic.GameState.regularClaimsFor, List.mem_map] at h
  obtain ⟨k, _, rfl⟩ := h
  rfl

theorem mem_catClaimsFor {s : GameLogic.GameState} {rng : GameLogic.Rng}
    {l : LineId} {p : ℤ} {c : Claim} (h : c ∈ s.catClaimsFor rng l p) :
    c.line = l ∧ c.type = ClaimType.catastrophe ∧ l.line = Line.home := by
  unfold GameLogic.GameState.catClaimsFor at h
  by_cases hh : l.line = Line.home
  · simp only [hh, if_pos] at h
    split at h
    · simp only [List.mem_map] at h
      obtain ⟨k, _, rfl⟩ := h
      exact ⟨rfl, rfl, hh⟩
    · simp at h
  · simp [hh] at h

theorem filter_regularClaimsFor (s : GameLogic.GameState) (rng : GameLogic.Rng)
    (l l₀ : LineId) :
    (s.regularClaimsFor rng l).filter (isCatOf l₀) = [] := by
  rw [List.filter_eq_nil_iff]
  intro c hc
  simp [isCatOf, mem_regularClaimsFor hc]

theorem filter_catClaimsFor_other (s : GameLogic.GameState) (rng : GameLogic.Rng)
    (l l₀ : LineId) (p : ℤ) (h : l ≠ l₀) :
    (s.catClaimsFor rng l p).filter (isCatOf l₀) = [] := by
  rw [List.filter_eq_nil_iff]
  intro c hc
  obtain ⟨hline, _, _⟩ := mem_catClaimsFor hc
  simp [isCatOf, hline, h]

theorem filter_catClaimsFor_self (s : GameLogic.GameState) (rng : GameLogic.Rng)
    (l : LineId) (p : ℤ) :
    (s.catClaimsFor rng l p).filter (isCatOf l) = s.catClaimsFor rng l p := by
  rw [List.filter_eq_self]
  intro c hc
  obtain ⟨hline, htype, _⟩ := mem_catClaimsFor hc
  simp [isCatOf, hline, htype]

theorem filter_flatMap_claims_of_not_mem (s : GameLogic.GameState) (rng : GameLogic.Rng)
    (l₀ : LineId) (l : List (LineId × ℤ)) (h : l₀ ∉ l.map Prod.fst) :
    (l.flatMap (fun e => s.regularClaimsFor rng e.1 ++ s.catClaimsFor rng e.1 e.2)).filter
      (isCatOf l₀) = [] := by
  induction l with
  | nil => rfl
  | cons e t ih =>
      simp only [List.map_cons, List.mem_cons, not_or] at h
      rw [List.flatMap_cons, List.filter_append, List.filter_append,
        filter_regularClaimsFor, filter_catClaimsFor_other s rng e.1 l₀ e.2 (Ne.symm h.1),
        ih h.2]
      rfl

theorem filter_flatMap_claims (s : GameLogic.GameState) (rng : GameLogic.Rng)
    (l₀ : LineId) (p₀ : ℤ) (l : List (LineId × ℤ))
    (hnodup : (l.map Prod.fst).Nodup) (hmem : (l₀, p₀) ∈ l) :
    (l.flatMap (fun e => s.regularClaimsFor rng e.1 ++ s.catClaimsFor rng e.1 e.2)).filter
      (isCatOf l₀) = s.catClaimsFor rng l₀ p₀ := by
  induction l with
  | nil => simp at hmem
  | cons e t ih =>
      rw [List.map_cons, List.nodup_cons] at hnodup
      rw [List.flatMap_cons, List.filter_append, List.filter_append, filter_regularClaimsFor]
      rcases List.mem_cons.1 hmem with he | ht
      · obtain rfl : e = (l₀, p₀) := he.symm
        rw [filter_catClaimsFor_self,
          filter_flatMap_claims_of_not_mem s rng l₀ t hnodup.1, List.append_nil, List.nil_append]
      · have hne : e.1 ≠ l₀ := by
          intro hcontra
          exact hnodup.1 (hcontra ▸ List.mem_map_of_mem Prod.fst ht)
        rw [filter_catClaimsFor_other s rng e.1 l₀ e.2 hne, ih hnodup.2 ht]
        rfl

/-- Claim C7: catastrophe claims are generated only for home lines; for a
home line holding `policies` policies the catastrophe block fires exactly
when the uniform `np.random.random()` draw is below
`catastrophe_risk / 4` (an event of probability `catastrophe_risk / 4`
per turn), and then the turn's catastrophe claims for that line are
`int(policies * uniform(0.1, 0.3))` many, each an independent log-normal
draw parameterised by the line's `cat_mean` and the fixed sigma `0.5`. -/
theorem C7_catastrophe_claims (s : GameLogic.GameState) (rng : GameLogic.Rng)
    (hnodup : (s.player_company.policies_sold.map Prod.fst).Nodup) :
    (∀ c ∈ s.generatedClaims rng, c.type = ClaimType.catastrophe →
      c.line.line = Line.home) ∧
    (∀ line_id policies, (line_id, policies) ∈ s.player_company.policies_sold →
      line_id.line = Line.home →
      (s.generatedClaims rng).filter (isCatOf line_id)
        = if rng.catOccur line_id <
            ((alistGet? s.states line_id.state).map StateInfo.catastrophe_risk).getD 0 / 4
          then (List.range (pyInt ((policies : ℚ) * rng.catRatio line_id)).toNat).map (fun k =>
            { line := line_id
              amount := rng.catAmount line_id (s.claim_distributions line_id).cat_mean 0.5 k
              turn := s.current_turn
              type := ClaimType.catastrophe })
          else []) := by
  constructor
  · intro c hc htype
    unfold GameLogic.GameState.generatedClaims at hc
    rw [List.mem_flatMap] at hc
    obtain ⟨e, _, hce⟩ := hc
    rcases List.mem_append.1 hce with hreg | hcat
    · rw [mem_regularClaimsFor hreg] at htype
      exact absurd htype (by simp)
    · obtain ⟨hline, _, hhome⟩ := mem_catClaimsFor hcat
      rw [hline]
      exact hhome
  · intro line_id policies hmem hhome
    rw [GameLogic.GameState.generatedClaims,
      filter_flatMap_claims s rng line_id policies _ hnodup hmem]
    rw [GameLogic.GameState.catClaimsFor]
    simp only [hhome, if_pos]

/-- Witness for C7 at the concrete state: the catastrophe fires on the CA
home line and produces exactly `int(20 * 1/4) = 5` catastrophe claims with
the drawn amounts, none of them leaking from the auto line's regular
claims. -/
theorem C7_catastrophe_claims_witness :
    (catTestState.player_company.policies_sold.map Prod.fst).Nodup ∧
    (⟨"CA", Line.home⟩, (20 : ℤ)) ∈ catTestState.player_company.policies_sold ∧
    (catTestState.generatedClaims catRng).filter (isCatOf ⟨"CA", Line.home⟩)
      = (List.range 5).map (fun k =>
          { line := ⟨"CA", Line.home⟩, amount := 100000 + (k : ℚ), turn := 0,
            type := ClaimType.catastrophe }) := by
  have hnodup : (catTestState.player_company.policies_sold.map Prod.fst).Nodup := by
    simp [catTestState]
  have hmem : (⟨"CA", Line.home⟩, (20 : ℤ)) ∈ catTestState.player_company.policies_sold := by
    simp [catTestState]
  have h := (C7_catastrophe_claims catTestState catRng hnodup).2 ⟨"CA", Line.home⟩ 20 hmem rfl
  refine ⟨hnodup, hmem, ?_⟩
  rw [h]
  have hcond : catRng.catOccur ⟨"CA", Line.home⟩ <
      ((alistGet? catTestState.states "CA").map StateInfo.catastrophe_risk).getD 0 / 4 := by
    norm_num [catRng, catTestState, simTestState, statesTable, alistGet?]
  rw [if_pos hcond]
  have hcount : (pyInt (((20 : ℤ) : ℚ) * catRng.catRatio ⟨"CA", Line.home⟩)).toNat = 5 := by
    rw [show ((20 : ℤ) : ℚ) * catRng.catRatio ⟨"CA", Line.home⟩ = 5 by norm_num [catRng]]
    rfl
  rw [hcount]
  rfl

theorem ai_roundtrip_persisted (c : Models.AICompetitor) :
    Models.persistedAI (Models.aiFromDict (Models.aiToDict c)) = Models.persistedAI c := rfl

theorem seg_roundtrip (e : LineId × MarketSegment) :
    (e.1, Models.segFromDict (Models.segToDict e.2)) = e := rfl

theorem asset_roundtrip_persisted (e : String × AssetPy.Asset) :
    (e.1, Models.persistedAsset (Models.assetFromDict (Models.assetToDict e.2)))
      = (e.1, Models.persistedAsset e.2) := rfl

/-- Claim C9: loading a saved snapshot restores every persisted field:
the turn counter, the full player company, every AI competitor's
name/cash/investments/policies/claims/premium rates/advertising budget
plus risk profile, the market segments, the persisted asset fields
(name, price, yield, volatility — price history restarts, as allowed),
state characteristics, base market rates, claim distributions, unlocked
states, and the financial history. -/
theorem C9_save_load_roundtrip (s : Models.GameState) :
    (Models.GameState.from_dict (Models.GameState.to_dict s)).current_turn = s.current_turn ∧
    (Models.GameState.from_dict (Models.GameState.to_dict s)).player_company
      = s.player_company ∧
    ((Models.GameState.from_dict (Models.GameState.to_dict s)).ai_competitors.map
        Models.persistedAI)
      = s.ai_competitors.map Models.persistedAI ∧
    (Models.GameState.from_dict (Models.GameState.to_dict s)).market_segments
      = s.market_segments ∧
    ((Models.GameState.from_dict (Models.GameState.to_dict s)).investment_assets.map
        (fun e => (e.1, Models.persistedAsset e.2)))
      = s.investment_assets.map (fun e => (e.1, Models.persistedAsset e.2)) ∧
    (Models.GameState.from_dict (Models.GameState.to_dict s)).states = s.states ∧
    (Models.GameState.from_dict (Models.GameState.to_dict s)).base_market_rates
      = s.base_market_rates ∧
    (Models.GameState.from_dict (Models.GameState.to_dict s)).claim_distributions
      = s.claim_distributions ∧
    (Models.GameState.from_dict (Models.GameState.to_dict s)).unlocked_states
      = s.unlocked_states ∧
    (Models.GameState.from_dict (Models.GameState.to_dict s)).financial_history
      = s.financial_history := by
  refine ⟨rfl, rfl, ?_, ?_, ?_, rfl, rfl, rfl, rfl, ?_⟩
  · show ((s.ai_competitors.map Models.aiToDict).map Models.aiFromDict).map Models.persistedAI
      = s.ai_competitors.map Models.persistedAI
    rw [List.map_map, List.map_map]
    exact List.map_congr_left (fun c _ => ai_roundtrip_persisted c)
  · show (s.market_segments.map (fun e => (e.1, Models.segToDict e.2))).map
        (fun e => (e.1, Models.segFromDict e.2)) = s.market_segments
    rw [List.map_map]
    have h := List.map_congr_left (l := s.market_segments)
      (f := (fun e => ((e : LineId × Models.SegmentDict).1, Models.segFromDict e.2)) ∘
        (fun e => ((e : LineId × MarketSegment).1, Models.segToDict e.2)))
      (g := id) (fun e _ => seg_roundtrip e)
    rw [h, List.map_id]
  · show ((s.investment_assets.map (fun e => (e.1, Models.assetToDict e.2))).map
        (fun e => (e.1, Models.assetFromDict e.2))).map
          (fun e => (e.1, Models.persistedAsset e.2))
      = s.investment_assets.map (fun e => (e.1, Models.persistedAsset e.2))
    rw [List.map_map, List.map_map]
    exact List.map_congr_left (fun e _ => asset_roundtrip_persisted e)
  · show (s.financial_history.map Models.reportToDict).map Models.reportFromDict
      = s.financial_history
    rw [List.map_map]
    have h := List.map_congr_left (l := s.financial_history)
      (f := Models.reportFromDict ∘ Models.reportToDict) (g := id) (fun r _ => rfl)
    rw [h, List.map_id]

theorem clip_le_hi (x lo hi : ℚ) : clip x lo hi ≤ hi := min_le_left _ _

theorem lo_le_clip {x lo hi : ℚ} (h : lo ≤ hi) : lo ≤ clip x lo hi :=
  le_min h (le_max_right _ _)

theorem le_clip_of_le {b x lo hi : ℚ} (hx : b ≤ x) (hhi : b ≤ hi) : b ≤ clip x lo hi :=
  le_min hhi (le_trans hx (le_max_left _ _))

theorem clip_rate_bounds (t base cur : ℚ) (hcur : 0 ≤ cur) :
    cur * (9/10) ≤ clip (max t (base * (17/20))) (cur - cur * (1/10)) (cur + cur * (1/10)) ∧
    clip (max t (base * (17/20))) (cur - cur * (1/10)) (cur + cur * (1/10)) ≤ cur * (11/10) ∧
    (base * (17/20) ≤ cur * (11/10) →
      base * (17/20) ≤
        clip (max t (base * (17/20))) (cur - cur * (1/10)) (cur + cur * (1/10))) := by
  refine ⟨?_, ?_, ?_⟩
  · rw [show cur * (9/10) = cur - cur * (1/10) by ring]
    exact lo_le_clip (by linarith)
  · rw [show cur * (11/10) = cur + cur * (1/10) by ring]
    exact clip_le_hi _ _ _
  · intro hfloor
    rw [show cur * (11/10) = cur + cur * (1/10) by ring] at hfloor
    exact le_clip_of_le (le_max_right _ _) hfloor

theorem newRateForLine_bounds (c : Models.AICompetitor) (seg : MarketSegment)
    (base player cur : ℚ) (pol : ℤ) (hcur : 0 ≤ cur) :
    cur * (9/10) ≤ c.newRateForLine seg base player cur pol ∧
    c.newRateForLine seg base player cur pol ≤ cur * (11/10) ∧
    (base * (17/20) ≤ cur * (11/10) →
      base * (17/20) ≤ c.newRateForLine seg base player cur pol) := by
  have h := clip_rate_bounds
    (if (if 0 < seg.market_size then (pol : ℚ) / (seg.market_size : ℚ) else 0)
        < c.target_market_share then
      min (player * (19/20)) (base * (1 - (1/10) * c.price_sensitivity))
    else max base (player * (51/50))) base cur hcur
  exact h

theorem pricingStep_rate_other (b : LineId → ℚ) (p : Company) (c : Models.AICompetitor)
    (e : LineId × MarketSegment) (l : LineId) (h : l ≠ e.1) :
    (Models.pricingStep b p c e).premium_rates l = c.premium_rates l := by
  unfold Models.pricingStep
  cases hc : c.premium_rates e.1 <;> simp [h]

theorem pricingStep_fields (b : LineId → ℚ) (p : Company) (c : Models.AICompetitor)
    (e : LineId × MarketSegment) :
    (Models.pricingStep b p c e).policies_sold = c.policies_sold ∧
    (Models.pricingStep b p c e).target_market_share = c.target_market_share ∧
    (Models.pricingStep b p c e).price_sensitivity = c.price_sensitivity := by
  unfold Models.pricingStep
  cases hc : c.premium_rates e.1 <;> exact ⟨rfl, rfl, rfl⟩

theorem foldl_pricing_rate_not_mem (b : LineId → ℚ) (p : Company)
    (segs : List (LineId × MarketSegment)) (c : Models.AICompetitor) (l : LineId)
    (h : l ∉ segs.map Prod.fst) :
    (segs.foldl (Models.pricingStep b p) c).premium_rates l = c.premium_rates l := by
  induction segs generalizing c with
  | nil => rfl
  | cons e t ih =>
      simp only [List.map_cons, List.mem_cons, not_or] at h
      rw [List.foldl_cons, ih _ h.2, pricingStep_rate_other b p c e l h.1]

theorem foldl_pricing_fields (b : LineId → ℚ) (p : Company)
    (segs : List (LineId × MarketSegment)) (c : Models.AICompetitor) :
    (segs.foldl (Models.pricingStep b p) c).policies_sold = c.policies_sold ∧
    (segs.foldl (Models.pricingStep b p) c).target_market_share = c.target_market_share ∧
    (segs.foldl (Models.pricingStep b p) c).price_sensitivity = c.price_sensitivity := by
  induction segs generalizing c with
  | nil => exact ⟨rfl, rfl, rfl⟩
  | cons e t ih =>
      rw [List.foldl_cons]
      obtain ⟨h1, h2, h3⟩ := ih (Models.pricingStep b p c e)
      obtain ⟨g1, g2, g3⟩ := pricingStep_fields b p c e
      exact ⟨h1.trans g1, h2.trans g2, h3.trans g3⟩

theorem newRateForLine_congr (c₁ c₂ : Models.AICompetitor) (seg : MarketSegment)
    (base player cur : ℚ) (pol : ℤ)
    (h1 : c₁.target_market_share = c₂.target_market_share)
    (h2 : c₁.price_sensitivity = c₂.price_sensitivity) :
    c₁.newRateForLine seg base player cur pol = c₂.newRateForLine seg base player cur pol := by
  unfold Models.AICompetitor.newRateForLine
  rw [h1, h2]

theorem pricingStep_rate_self (b : LineId → ℚ) (p : Company) (c : Models.AICompetitor)
    (e : LineId × MarketSegment) (cur : ℚ) (hc : c.premium_rates e.1 = some cur) :
    (Models.pricingStep b p c e).premium_rates e.1
      = some (c.newRateForLine e.2 (b e.1) ((p.premium_rates e.1).getD (b e.1)) cur
          (alistGetD c.policies_sold e.1 0)) := by
  unfold Models.pricingStep
  split
  · next h => rw [hc] at h; cases h
  · next cur2 h =>
      rw [hc] at h
      injection h with h2
      subst h2
      simp

theorem update_pricing_rate_of_mem (c : Models.AICompetitor)
    (segs : List (LineId × MarketSegment)) (b : LineId → ℚ) (p : Company)
    (l : LineId) (seg : MarketSegment) (cur : ℚ)
    (hnodup : (segs.map Prod.fst).Nodup) (hmem : (l, seg) ∈ segs)
    (hcur : c.premium_rates l = some cur) :
    (c.update_pricing segs b p).premium_rates l
      = some (c.newRateForLine seg (b l) ((p.premium_rates l).getD (b l)) cur
          (alistGetD c.policies_sold l 0)) := by
  obtain ⟨pre, post, rfl⟩ := List.append_of_mem hmem
  have hk : (pre.map Prod.fst ++ l :: post.map Prod.fst).Nodup := by
    simpa using hnodup
  rw [List.nodup_append] at hk
  have hlpost : l ∉ post.map Prod.fst := (List.nodup_cons.1 hk.2.1).1
  have hlpre : l ∉ pre.map Prod.fst := fun hmem2 =>
    hk.2.2 hmem2 (List.mem_cons_self l (post.map Prod.fst))
  unfold Models.AICompetitor.update_pricing
  rw [List.foldl_append, List.foldl_cons,
    foldl_pricing_rate_not_mem b p post _ l hlpost]
  obtain ⟨hpol, htms, hps⟩ := foldl_pricing_fields b p pre c
  have hrate : (pre.foldl (Models.pricingStep b p) c).premium_rates l = some cur := by
    rw [foldl_pricing_rate_not_mem b p pre c l hlpre, hcur]
  rw [pricingStep_rate_self b p (pre.foldl (Models.pricingStep b p) c) (l, seg) cur hrate,
    hpol]
  exact congrArg some (newRateForLine_congr _ _ _ _ _ _ _ htms hps)

/-- Claim C8, amended: one AI pricing step keeps a held (non-negative)
rate within ±10% of its prior value unconditionally; the result is at
least 85% of the line's base market rate provided the prior rate is high
enough to reach the floor through the ±10% clamp, i.e. provided
`0.85 * base ≤ 1.1 * prior` (in particular whenever the prior rate is
already at or above the floor, so the floor is invariant); a prior rate
below `(0.85/1.1) * base` yields `1.1 * prior`, which is below the
floor. -/
theorem C8_pricing_amended (c : Models.AICompetitor)
    (segs : List (LineId × MarketSegment)) (b : LineId → ℚ) (p : Company)
    (l : LineId) (seg : MarketSegment) (cur : ℚ)
    (hnodup : (segs.map Prod.fst).Nodup) (hmem : (l, seg) ∈ segs)
    (hcur : c.premium_rates l = some cur) (hcur0 : 0 ≤ cur) :
    ∃ r, (c.update_pricing segs b p).premium_rates l = some r ∧
      cur * (9/10) ≤ r ∧ r ≤ cur * (11/10) ∧
      (b l * (17/20) ≤ cur * (11/10) → b l * (17/20) ≤ r) := by
  refine ⟨c.newRateForLine seg (b l) ((p.premium_rates l).getD (b l)) cur
    (alistGetD c.policies_sold l 0),
    update_pricing_rate_of_mem c segs b p l seg cur hnodup hmem hcur, ?_⟩
  obtain ⟨h1, h2, h3⟩ := newRateForLine_bounds c seg (b l)
    ((p.premium_rates l).getD (b l)) cur (alistGetD c.policies_sold l 0) hcur0
  exact ⟨h1, h2, h3⟩

/-- Counterexample to Claim C8 as stated: a balanced competitor holding a
$400 rate on CA auto (base rate $900, player at base) produces the rate
$440 in one pricing step — within ±10% of $400, but well below the claimed
floor of 85% of the base rate ($765). -/
theorem C8_counterexample :
    (priceTestComp.update_pricing [(⟨"CA", Line.auto⟩, priceTestSeg)] (fun _ => 900)
        initialCompany).premium_rates ⟨"CA", Line.auto⟩ = some 440 ∧
    ¬ ((900 : ℚ) * (17/20) ≤ 440) := by
  constructor
  · show (Models.pricingStep (fun _ => 900) initialCompany priceTestComp
        (⟨"CA", Line.auto⟩, priceTestSeg)).premium_rates ⟨"CA", Line.auto⟩ = some 440
    have hc : priceTestComp.premium_rates ⟨"CA", Line.auto⟩ = some 400 := by
      simp [priceTestComp, Models.AICompetitor.init]
    unfold Models.pricingStep
    rw [hc]
    simp only [if_pos rfl]
    have : priceTestComp.newRateForLine priceTestSeg 900
        ((initialCompany.premium_rates ⟨"CA", Line.auto⟩).getD 900) 400
        (alistGetD priceTestComp.policies_sold ⟨"CA", Line.auto⟩ 0) = 440 := by
      unfold Models.AICompetitor.newRateForLine
      simp [priceTestComp, priceTestSeg, initialCompany, Models.AICompetitor.init,
        alistGetD, alistGet?, clip]
      norm_num [min_def, max_def]
    rw [this]
    simp
  · norm_num

/-- Witness for the amended C8 at a concrete input: a balanced competitor
holding the base rate $900 on CA auto stays within [810, 990] and above
the $765 floor in one pricing step. -/
theorem C8_pricing_witness :
    priceTestComp2.premium_rates ⟨"CA", Line.auto⟩ = some 900 ∧
    ((0 : ℚ) ≤ 900) ∧
    ∃ r, (priceTestComp2.update_pricing [(⟨"CA", Line.auto⟩, priceTestSeg)] (fun _ => 900)
        initialCompany).premium_rates ⟨"CA", Line.auto⟩ = some r ∧
      (900 : ℚ) * (9/10) ≤ r ∧ r ≤ (900 : ℚ) * (11/10) ∧
      ((900 : ℚ) * (17/20) ≤ (900 : ℚ) * (11/10) → (900 : ℚ) * (17/20) ≤ r) := by
  have hc : priceTestComp2.premium_rates ⟨"CA", Line.auto⟩ = some 900 := by
    simp [priceTestComp2, Models.AICompetitor.init]
  refine ⟨hc, by norm_num, ?_⟩
  exact C8_pricing_amended priceTestComp2 [(⟨"CA", Line.auto⟩, priceTestSeg)]
    (fun _ => 900) initialCompany ⟨"CA", Line.auto⟩ priceTestSeg 900
    (by simp) (by simp) hc (by norm_num)

theorem alistGetD_dictSet_self {K V : Type} [DecidableEq K]
    (l : List (K × V)) (k : K) (v d : V) :
    alistGetD (dictSet l k v) k d = v := by
  unfold alistGetD
  rw [alistGet?_dictSet_self]
  rfl

theorem alistGetD_dictSet_other {K V : Type} [DecidableEq K]
    (l : List (K × V)) (k k₀ : K) (v d : V) (hkk : k ≠ k₀) :
    alistGetD (dictSet l k v) k₀ d = alistGetD l k₀ d := by
  unfold alistGetD
  rw [alistGet?_dictSet_other l k k₀ v hkk]

theorem calculate_demand_nonneg (seg : MarketSegment) (expQ : ℚ → ℚ)
    (hexp : ∀ x, 0 ≤ expQ x) (premium : ℚ) (rates : List ℚ) :
    0 ≤ seg.calculate_demand expQ premium rates := by
  unfold MarketSegment.calculate_demand
  apply pyInt_nonneg
  apply le_min
  · positivity
  · exact mul_nonneg (by positivity) (hexp _)

theorem div_cast_le_self {R : ℤ} (n : ℕ) (hR : 0 ≤ R) :
    (R : ℚ) / (n : ℚ) ≤ (R : ℚ) := by
  cases n with
  | zero => simpa using by exact_mod_cast hR
  | succ m =>
      apply div_le_self (by exact_mod_cast hR)
      exact_mod_cast Nat.succ_le_succ (Nat.zero_le m)

theorem allocCompetitors_sum (expQ : ℚ → ℚ) (seg : MarketSegment) (base : ℚ)
    (rates : List ℚ) (n : ℕ) (line : LineId) (hexp : ∀ x, 0 ≤ expQ x) :
    ∀ (comps : List Models.AICompetitor) (R : ℤ), 0 ≤ R →
      0 ≤ (Models.allocCompetitors expQ seg base rates n line comps R).2 ∧
      ((Models.allocCompetitors expQ seg base rates n line comps R).1.map
          (fun c => alistGetD c.policies_sold line 0)).sum
        = R - (Models.allocCompetitors expQ seg base rates n line comps R).2 := by
  intro comps
  induction comps with
  | nil =>
      intro R hR
      exact ⟨hR, by simp [Models.allocCompetitors]⟩
  | cons comp rest ih =>
      intro R hR
      have hd0 : (0 : ℚ) ≤ ((seg.calculate_demand expQ
          ((comp.premium_rates line).getD base) rates : ℤ) : ℚ) := by
        exact_mod_cast calculate_demand_nonneg seg expQ hexp _ rates
      have hq0 : (0 : ℚ) ≤ min ((seg.calculate_demand expQ
          ((comp.premium_rates line).getD base) rates : ℤ) : ℚ) ((R : ℚ) / (n : ℚ)) :=
        le_min hd0 (div_nonneg (by exact_mod_cast hR) (by positivity))
      set cpol := pyInt (min ((seg.calculate_demand expQ
        ((comp.premium_rates line).getD base) rates : ℤ) : ℚ) ((R : ℚ) / (n : ℚ))) with hcpol
      have hc0 : 0 ≤ cpol := pyInt_nonneg hq0
      have hcR : cpol ≤ R := by
        have h1 : (cpol : ℚ) ≤ (R : ℚ) := by
          calc (cpol : ℚ) ≤ _ := pyInt_le hq0
            _ ≤ (R : ℚ) / (n : ℚ) := min_le_right _ _
            _ ≤ (R : ℚ) := div_cast_le_self n hR
        exact_mod_cast h1
      have hR2 : 0 ≤ R - cpol := by omega
      obtain ⟨ih1, ih2⟩ := ih (R - cpol) hR2
      have hunfold : Models.allocCompetitors expQ seg base rates n line (comp :: rest) R
          = ({ comp with policies_sold := dictSet comp.policies_sold line cpol } ::
              (Models.allocCompetitors expQ seg base rates n line rest (R - cpol)).1,
             (Models.allocCompetitors expQ seg base rates n line rest (R - cpol)).2) := rfl
      rw [hunfold]
      refine ⟨ih1, ?_⟩
      simp only [List.map_cons, List.sum_cons, alistGetD_dictSet_self]
      rw [ih2]
      omega

theorem allocCompetitors_rates (expQ : ℚ → ℚ) (seg : MarketSegment) (base : ℚ)
    (rates : List ℚ) (n : ℕ) (line : LineId) :
    ∀ (comps : List Models.AICompetitor) (R : ℤ),
      (Models.allocCompetitors expQ seg base rates n line comps R).1.map
          (fun c => c.premium_rates)
        = comps.map (fun c => c.premium_rates) := by
  intro comps
  induction comps with
  | nil => intro R; rfl
  | cons comp rest ih =>
      intro R
      simp only [Models.allocCompetitors, List.map_cons]
      rw [ih]

theorem allocCompetitors_other (expQ : ℚ → ℚ) (seg : MarketSegment) (base : ℚ)
    (rates : List ℚ) (n : ℕ) (line l : LineId) (h : line ≠ l) :
    ∀ (comps : List Models.AICompetitor) (R : ℤ),
      (Models.allocCompetitors expQ seg base rates n line comps R).1.map
          (fun c => alistGetD c.policies_sold l 0)
        = comps.map (fun c => alistGetD c.policies_sold l 0) := by
  intro comps
  induction comps with
  | nil => intro R; rfl
  | cons comp rest ih =>
      intro R
      simp only [Models.allocCompetitors, List.map_cons]
      rw [ih, alistGetD_dictSet_other _ _ _ _ _ h]

theorem policiesStep_player_other (s : Models.GameState) (expQ : ℚ → ℚ)
    (variation : LineId → ℚ) (acc : List (LineId × ℤ) × List Models.AICompetitor)
    (e : LineId × MarketSegment) (l : LineId) (h : l ≠ e.1) :
    alistGet? (Models.policiesStep s expQ variation acc e).1 l = alistGet? acc.1 l := by
  simp only [Models.policiesStep]
  split_ifs <;> exact alistGet?_dictSet_other _ _ _ _ (Ne.symm h)

theorem policiesStep_comps_other (s : Models.GameState) (expQ : ℚ → ℚ)
    (variation : LineId → ℚ) (acc : List (LineId × ℤ) × List Models.AICompetitor)
    (e : LineId × MarketSegment) (l : LineId) (h : l ≠ e.1) :
    (Models.policiesStep s expQ variation acc e).2.map
        (fun c => alistGetD c.policies_sold l 0)
      = acc.2.map (fun c => alistGetD c.policies_sold l 0) := by
  simp only [Models.policiesStep]
  split_ifs
  · exact allocCompetitors_other expQ _ _ _ _ _ l (Ne.symm h) acc.2 _
  · rfl
  · rw [List.map_map]
    exact List.map_congr_left (fun c _ => alistGetD_dictSet_other _ _ _ _ _ (Ne.symm h))

theorem policiesStep_comps_rates (s : Models.GameState) (expQ : ℚ → ℚ)
    (variation : LineId → ℚ) (acc : List (LineId × ℤ) × List Models.AICompetitor)
    (e : LineId × MarketSegment) :
    (Models.policiesStep s expQ variation acc e).2.map (fun c => c.premium_rates)
      = acc.2.map (fun c => c.premium_rates) := by
  simp only [Models.policiesStep]
  split_ifs
  · exact allocCompetitors_rates expQ _ _ _ _ _ acc.2 _
  · rfl
  · rw [List.map_map]
    exact List.map_congr_left (fun c _ => rfl)

theorem foldl_policies_other (s : Models.GameState) (expQ : ℚ → ℚ)
    (variation : LineId → ℚ) (l : LineId)
    (segs : List (LineId × MarketSegment)) (h : l ∉ segs.map Prod.fst) :
    ∀ acc : List (LineId × ℤ) × List Models.AICompetitor,
      alistGet? (segs.foldl (Models.policiesStep s expQ variation) acc).1 l
        = alistGet? acc.1 l ∧
      (segs.foldl (Models.policiesStep s expQ variation) acc).2.map
          (fun c => alistGetD c.policies_sold l 0)
        = acc.2.map (fun c => alistGetD c.policies_sold l 0) := by
  induction segs with
  | nil => intro acc; exact ⟨rfl, rfl⟩
  | cons e t ih =>
      intro acc
      simp only [List.map_cons, List.mem_cons, not_or] at h
      obtain ⟨ih1, ih2⟩ := ih h.2 (Models.policiesStep s expQ variation acc e)
      rw [List.foldl_cons]
      exact ⟨ih1.trans (policiesStep_player_other s expQ variation acc e l h.1),
        ih2.trans (policiesStep_comps_other s expQ variation acc e l h.1)⟩

theorem foldl_policies_rates (s : Models.GameState) (expQ : ℚ → ℚ)
    (variation : LineId → ℚ) (segs : List (LineId × MarketSegment)) :
    ∀ acc : List (LineId × ℤ) × List Models.AICompetitor,
      (segs.foldl (Models.policiesStep s expQ variation) acc).2.map
          (fun c => c.premium_rates)
        = acc.2.map (fun c => c.premium_rates) := by
  induction segs with
  | nil => intro acc; rfl
  | cons e t ih =>
      intro acc
      rw [List.foldl_cons]
      exact (ih _).trans (policiesStep_comps_rates s expQ variation acc e)

/-- Claim C2, amended: in every segment of an unlocked state, whenever the
player's post-variation allocation is strictly below `market_size` (so
that the remaining demand handed to the competitors is positive), the
total number of policies allocated across the player and all AI
competitors is at most `market_size`; when the player's allocation reaches
or exceeds `market_size` the competitor loop is skipped and stale
competitor counts can push the total above the cap (see the
counterexample). -/
theorem C2_segment_capacity_amended (s : Models.GameState) (expQ : ℚ → ℚ)
    (variation : LineId → ℚ) (hexp : ∀ x, 0 ≤ expQ x)
    (hnodup : (s.market_segments.map Prod.fst).Nodup)
    (l : LineId) (seg : MarketSegment) (hmem : (l, seg) ∈ s.market_segments)
    (hunlocked : s.unlocked_states l.state = true)
    (hP : Models.playerAllocFor s expQ variation l seg < (seg.market_size : ℤ)) :
    Models.totalPoliciesInSegment (s.update_policies expQ variation) l
      ≤ (seg.market_size : ℤ) := by
  obtain ⟨pre, post, hsplit⟩ := List.append_of_mem hmem
  have htotal : Models.totalPoliciesInSegment (s.update_policies expQ variation) l
      = alistGetD (s.market_segments.foldl (Models.policiesStep s expQ variation)
          ([], s.ai_competitors)).1 l 0
        + ((s.market_segments.foldl (Models.policiesStep s expQ variation)
            ([], s.ai_competitors)).2.map (fun c => alistGetD c.policies_sold l 0)).sum := rfl
  rw [htotal, hsplit, List.foldl_append, List.foldl_cons]
  have hk : (pre.map Prod.fst ++ l :: post.map Prod.fst).Nodup := by
    rw [hsplit] at hnodup
    simpa using hnodup
  rw [List.nodup_append] at hk
  have hlpost : l ∉ post.map Prod.fst := (List.nodup_cons.1 hk.2.1).1
  set acc1 := pre.foldl (Models.policiesStep s expQ variation) ([], s.ai_competitors)
    with hacc1
  have hrates : acc1.2.map (fun c => c.premium_rates)
      = s.ai_competitors.map (fun c => c.premium_rates) :=
    foldl_policies_rates s expQ variation pre ([], s.ai_competitors)
  -- the rate list the step reads equals the one `playerAllocFor` reads
  have hratelist : acc1.2.map (fun c => (c.premium_rates l).getD (s.base_market_rates l))
      = s.ai_competitors.map (fun c => (c.premium_rates l).getD (s.base_market_rates l)) := by
    have h1 : acc1.2.map (fun c => (c.premium_rates l).getD (s.base_market_rates l))
        = (acc1.2.map (fun c => c.premium_rates)).map
            (fun f => (f l).getD (s.base_market_rates l)) := by
      rw [List.map_map]
      rfl
    have h2 : s.ai_competitors.map (fun c => (c.premium_rates l).getD (s.base_market_rates l))
        = (s.ai_competitors.map (fun c => c.premium_rates)).map
            (fun f => (f l).getD (s.base_market_rates l)) := by
      rw [List.map_map]
      rfl
    rw [h1, h2, hrates]
  -- evaluate the step on the (l, seg) entry
  have hPdef : Models.playerAllocFor s expQ variation l seg
      = pyInt ((seg.calculate_demand expQ
          ((s.player_company.premium_rates l).getD (s.base_market_rates l))
          (s.base_market_rates l
            :: ((s.player_company.premium_rates l).getD (s.base_market_rates l))
            :: s.ai_competitors.map (fun c =>
                (c.premium_rates l).getD (s.base_market_rates l))) : ℚ)
        * variation l) := rfl
  have hstep : Models.policiesStep s expQ variation acc1 (l, seg)
      = (dictSet acc1.1 l (Models.playerAllocFor s expQ variation l seg),
         (Models.allocCompetitors expQ seg (s.base_market_rates l)
           (s.base_market_rates l :: ((s.player_company.premium_rates l).getD
             (s.base_market_rates l))
             :: s.ai_competitors.map (fun c => (c.premium_rates l).getD (s.base_market_rates l)))
           acc1.2.length l acc1.2
           ((seg.market_size : ℤ) - Models.playerAllocFor s expQ variation l seg)).1) := by
    simp only [Models.policiesStep, hunlocked, if_true, hratelist]
    rw [← hPdef]
    rw [if_pos (by omega : (0 : ℤ) <
      (seg.market_size : ℤ) - Models.playerAllocFor s expQ variation l seg)]
  have hstep1 : (Models.policiesStep s expQ variation acc1 (l, seg)).1
      = dictSet acc1.1 l (Models.playerAllocFor s expQ variation l seg) := by
    rw [hstep]
  have hstep2 : (Models.policiesStep s expQ variation acc1 (l, seg)).2
      = (Models.allocCompetitors expQ seg (s.base_market_rates l)
          (s.base_market_rates l :: ((s.player_company.premium_rates l).getD
            (s.base_market_rates l))
            :: s.ai_competitors.map (fun c => (c.premium_rates l).getD (s.base_market_rates l)))
          acc1.2.length l acc1.2
          ((seg.market_size : ℤ) - Models.playerAllocFor s expQ variation l seg)).1 := by
    rw [hstep]
  obtain ⟨hget, hcompsum⟩ := foldl_policies_other s expQ variation l post hlpost
    (Models.policiesStep s expQ variation acc1 (l, seg))
  rw [alistGetD, hget, hstep1, alistGet?_dictSet_self, hcompsum, hstep2]
  obtain ⟨hRf, hsum⟩ := allocCompetitors_sum expQ seg (s.base_market_rates l) _
    acc1.2.length l hexp acc1.2
    ((seg.market_size : ℤ) - Models.playerAllocFor s expQ variation l seg) (by omega)
  rw [hsum]
  simp only [Option.getD_some]
  omega

/-- Counterexample to Claim C2 as stated: with the CA home segment at
capacity 100 and every rate equal, a player variation draw of 1.05 gives
the player `int(100 * 1.05) = 105` policies; the remaining demand is
negative, so the three competitors keep their stale counts of 5 each, and
the segment ends the allocation with 120 > 100 policies. -/
theorem C2_counterexample :
    Models.totalPoliciesInSegment
        (allocTestState.update_policies (fun _ => 1) (fun _ => 21/20)) ⟨"CA", Line.home⟩
      = 120 ∧
    (alistGet? allocTestState.market_segments ⟨"CA", Line.home⟩).map MarketSegment.market_size
      = some 100 ∧
    ¬ ((120 : ℤ) ≤ 100) := by
  refine ⟨?_, by simp [allocTestState, allocTestSeg, alistGet?], by norm_num⟩
  simp only [Models.totalPoliciesInSegment, Models.GameState.update_policies]
  simp [Models.policiesStep, allocTestState, allocTestSeg, staleComp,
    Models.AICompetitor.init, initialCompany, MarketSegment.calculate_demand, listMean,
    pyInt, alistGetD, alistGet?, dictSet, statesTable]
  norm_num [alistGet?]

/-- Witness for the amended C2 at a concrete input: a variation draw of
0.95 gives the player 95 < 100 policies, and the total allocation in the
segment stays within the capacity of 100. -/
theorem C2_segment_capacity_witness :
    (∀ x : ℚ, (0 : ℚ) ≤ (fun _ : ℚ => (1 : ℚ)) x) ∧
    (allocTestState.market_segments.map Prod.fst).Nodup ∧
    ((⟨"CA", Line.home⟩, allocTestSeg) ∈ allocTestState.market_segments) ∧
    allocTestState.unlocked_states "CA" = true ∧
    Models.playerAllocFor allocTestState (fun _ => 1) (fun _ => 19/20) ⟨"CA", Line.home⟩
      allocTestSeg < 100 ∧
    Models.totalPoliciesInSegment
        (allocTestState.update_policies (fun _ => 1) (fun _ => 19/20)) ⟨"CA", Line.home⟩
      ≤ 100 := by
  have hexp : ∀ x : ℚ, (0 : ℚ) ≤ (fun _ : ℚ => (1 : ℚ)) x := fun _ => by norm_num
  have hnodup : (allocTestState.market_segments.map Prod.fst).Nodup := by
    simp [allocTestState]
  have hmem : (⟨"CA", Line.home⟩, allocTestSeg) ∈ allocTestState.market_segments := by
    simp [allocTestState]
  have hunlocked : allocTestState.unlocked_states "CA" = true := by
    simp [allocTestState]
  have hP : Models.playerAllocFor allocTestState (fun _ => 1) (fun _ => 19/20)
      ⟨"CA", Line.home⟩ allocTestSeg < 100 := by
    simp [Models.playerAllocFor, allocTestState, allocTestSeg, staleComp,
      Models.AICompetitor.init, initialCompany, MarketSegment.calculate_demand,
      listMean, pyInt]
    norm_num
  refine ⟨hexp, hnodup, hmem, hunlocked, hP, ?_⟩
  have h := C2_segment_capacity_amended allocTestState (fun _ => 1) (fun _ => 19/20)
    hexp hnodup ⟨"CA", Line.home⟩ allocTestSeg hmem hunlocked hP
  simpa [allocTestSeg] using h

/-- Claim C4: for every asset and every price update (i.e. every starting
state of the asset and every realisation of the normal shock), the updated
price is strictly positive — the `max 0.01` floor of
`asset.Asset.update_price` enforces it — and the `net_trades` accumulator
is exactly 0 immediately after the update.  Universality in the asset
covers every position in any sequence of updates. -/
theorem C4_asset_price_floor_and_reset (a : AssetPy.Asset) (random_shock : ℚ) :
    0 < (a.update_price random_shock).current_price ∧
      (a.update_price random_shock).net_trades = 0 := by
  constructor
  · have h : (0.01 : ℚ) ≤ (a.update_price random_shock).current_price := le_max_left _ _
    linarith
  · rfl
